import Mathlib

/-!
# Verification of the livesheet-updater scheduling/update pipeline

Shallow embedding of the core of `streamwall/livesheet-updater`:

* URL cleaning and validation (`src/src/utils/url.js`, `src/main.js`),
* the watch-list priority rate formula (`src/src/utils/priority.js`, file
  `src/unnamed/part_008`),
* the prioritizer (`src/lib/streamPrioritizer.js`),
* the check orchestrator (`src/src/services/streamChecker.js`, file
  `src/unnamed/part_003`),
* the batch committer (`src/main.js` `batchUpdateRows` and
  `src/src/services/batchUpdater.js`),
* the archiver (file `src/unnamed/part_002`),
* the known-streamers promoter (`src/src/services/knownStreamers.js`, file
  `src/unnamed/part_011`),
* the StreamSource client's retry behaviour (`src/lib/streamSourceClient.js`).

Modelling conventions: JavaScript timestamps (`Date.now()`, parsed date
strings) are integers (milliseconds); a sheet cell that is `undefined` or
empty (falsy) is `none`; JS `Map`s are association lists preserving
insertion order; the external network calls (`fetch`, `StatusDetector`,
row saves, archive calls) are inputs to the embedded functions — a function
argument gives the outcome each call would produce, so one embedded run
corresponds to one concrete execution of the source loop.
-/

namespace Livesheet

/-! ## Constants (src/src/config/constants.js, file src/unnamed/part_000) -/

def MINUTE : Int := 60 * 1000

def RATE_LIVE : Int := 2 * MINUTE

def RATE_OFF : Int := 7 * MINUTE

def RECENTLY_LIVE_THRESHOLD : Int := 20 * MINUTE

def BASE_CHECK_RATE : Int := 15 * MINUTE

def MAX_CHECK_RATE : Int := 90 * MINUTE

def PRIORITY_ALWAYS_CHECK : Int := 100

def MAX_KNOWN_STREAMERS_PER_CYCLE : Nat := 10

def PRIORITY_MIN : Int := 0

def PRIORITY_MAX : Int := 100

def PRIORITY_STEEPNESS_FACTOR : Int := 4

def STATUS_LIVE : String := "Live"

def STATUS_OFFLINE : String := "Offline"

/-! ## URL cleaning (src/src/utils/url.js `cleanUrl`, same helper in src/main.js)

`cleanUrl(url) = url.trim().replace(/[^\x20-\x7E]/g, '')
                           .replace(/[​-‏‪-‮⁠-⁯﻿]/g, '')`.
-/

/-- ECMAScript WhiteSpace and LineTerminator characters removed by
`String.prototype.trim` (note: U+200B zero-width space is NOT among them). -/
def isJsTrimmable (c : Char) : Bool :=
  c = ' ' || c = '\t' || c = '\n' || c = '\r' ||
  c = (Char.ofNat 0x0B) || c = (Char.ofNat 0x0C) ||
  c = (Char.ofNat 0xA0) || c = (Char.ofNat 0xFEFF) ||
  c = (Char.ofNat 0x1680) ||
  (0x2000 ≤ c.toNat && c.toNat ≤ 0x200A) ||
  c = (Char.ofNat 0x2028) || c = (Char.ofNat 0x2029) ||
  c = (Char.ofNat 0x202F) || c = (Char.ofNat 0x205F) || c = (Char.ofNat 0x3000)

/-- JavaScript `String.prototype.trim` on a character list. -/
def jsTrimChars (l : List Char) : List Char :=
  ((l.dropWhile isJsTrimmable).reverse.dropWhile isJsTrimmable).reverse

/-- JavaScript `String.prototype.trim`. -/
def jsTrim (s : String) : String :=
  ⟨jsTrimChars s.data⟩

/-- Matches the character class `[\x20-\x7E]` (printable ASCII). -/
def isAsciiPrintable (c : Char) : Bool :=
  0x20 ≤ c.toNat && c.toNat ≤ 0x7E

/-- Matches the character class `[​-‏‪-‮⁠-⁯﻿]`. -/
def isZeroWidthClass (c : Char) : Bool :=
  (0x200B ≤ c.toNat && c.toNat ≤ 0x200F) ||
  (0x202A ≤ c.toNat && c.toNat ≤ 0x202E) ||
  (0x2060 ≤ c.toNat && c.toNat ≤ 0x206F) ||
  c.toNat = 0xFEFF

/-- Embeds `cleanUrl` from src/src/utils/url.js (and the identical helper in
src/main.js): trim, then delete every non-printable-ASCII character, then
delete every zero-width character. -/
def cleanUrl (s : String) : String :=
  ⟨((jsTrimChars s.data).filter isAsciiPrintable).filter (fun c => !isZeroWidthClass c)⟩

/-! ## URL validation (src/src/utils/url.js `isValidLiveUrl` over the
`URL_PATTERNS` object of src/src/config/constants.js)

The six regexes — `tiktok`, `youtubeWatch`, `youtubeLive`, `youtubeShorts`,
`youtubeShort`, `twitch` — are anchored at the start (`^`) and built from
literals, `(www\.)?`, `.*`, `.+`, the negated class `[^\/]+`, and optional
`(\?.*)?$` / `\/?$` tails; `.` does not match a line terminator (a negated
class such as `[^\/]` does). Each is embedded as an executable matcher; the
two existential wildcards in the TikTok pattern are decided by searching
every split point. (src/main.js carries its own five-pattern variant with a
wider twitch regex; no embedded function here calls that variant — the
committers do not validate, and part_003/part_011 import this one.) -/

/-- ECMAScript LineTerminator (not matched by `.`). -/
def isLineTerminator (c : Char) : Bool :=
  c = '\n' || c = '\r' || c = (Char.ofNat 0x2028) || c = (Char.ofNat 0x2029)

/-- Match a literal at the head of the input, returning the rest. -/
def dropLit? : List Char → List Char → Option (List Char)
  | [], cs => some cs
  | _ :: _, [] => none
  | l :: ls, c :: cs => if c = l then dropLit? ls cs else none

/-- Matches `(www\.)?` at the head: stripping the literal when present is equivalent
to the regex alternation, because a string starting with `www.` cannot also
start with the literal that follows the optional group. -/
def dropWww (cs : List Char) : List Char :=
  match dropLit? "www.".data cs with
  | some rest => rest
  | none => cs

/-- Matches `.+` with nothing anchored after it: succeeds iff at least one
non-line-terminator character follows. -/
def hasDotPlusTail (cs : List Char) : Bool :=
  match cs with
  | [] => false
  | c :: _ => !isLineTerminator c

/-- Embeds `/^https:\/\/.*\.tiktok\.com\/.+\/live(\?.*)?$/`. -/
def testTiktok (s : String) : Bool :=
  match dropLit? "https://".data s.data with
  | none => false
  | some r =>
    (List.range (r.length + 1)).any fun k =>
      (r.take k).all (fun c => !isLineTerminator c) &&
      match dropLit? ".tiktok.com/".data (r.drop k) with
      | none => false
      | some rest =>
        (List.range (rest.length + 1)).any fun j =>
          decide (1 ≤ j) && (rest.take j).all (fun c => !isLineTerminator c) &&
          match dropLit? "/live".data (rest.drop j) with
          | none => false
          | some tail =>
            match tail with
            | [] => true
            | c :: cs => c = '?' && cs.all (fun c => !isLineTerminator c)

/-- Embeds `/^https:\/\/(www\.)?youtube\.com\/watch\?v=.+/`. -/
def testYoutubeWatch (s : String) : Bool :=
  match dropLit? "https://".data s.data with
  | none => false
  | some r =>
    match dropLit? "youtube.com/watch?v=".data (dropWww r) with
    | none => false
    | some rest => hasDotPlusTail rest

/-- Embeds `/^https:\/\/(www\.)?youtube\.com\/live\/.+/`. -/
def testYoutubeLive (s : String) : Bool :=
  match dropLit? "https://".data s.data with
  | none => false
  | some r =>
    match dropLit? "youtube.com/live/".data (dropWww r) with
    | none => false
    | some rest => hasDotPlusTail rest

/-- Embeds `/^https:\/\/(www\.)?youtube\.com\/shorts\/.+/`. -/
def testYoutubeShorts (s : String) : Bool :=
  match dropLit? "https://".data s.data with
  | none => false
  | some r =>
    match dropLit? "youtube.com/shorts/".data (dropWww r) with
    | none => false
    | some rest => hasDotPlusTail rest

/-- Embeds `/^https:\/\/youtu\.be\/.+/`. -/
def testYoutubeShort (s : String) : Bool :=
  match dropLit? "https://youtu.be/".data s.data with
  | none => false
  | some rest => hasDotPlusTail rest

/-- Embeds `/^https:\/\/(www\.)?twitch\.tv\/[^\/]+\/?$/`: after the host,
exactly one nonempty path segment with no further slash (`[^\/]` matches any
character but `/`, newlines included), an optional trailing slash, then the
end of the string. Stripping an optional trailing `/` and requiring the rest
slash-free and nonempty is exactly the regex: `[^\/]+` must cover everything
before the final optional `/`. -/
def testTwitch (s : String) : Bool :=
  match dropLit? "https://".data s.data with
  | none => false
  | some r =>
    match dropLit? "twitch.tv/".data (dropWww r) with
    | none => false
    | some rest =>
      let core := if rest.getLast? = some '/' then rest.dropLast else rest
      decide (core ≠ []) && core.all (fun c => c ≠ '/')

/-- Embeds `isValidLiveUrl` from src/src/utils/url.js:
`!!(url && Object.values(URL_PATTERNS).some(p => p.test(url)))`, with
`URL_PATTERNS` the six-pattern object of src/src/config/constants.js. -/
def isValidLiveUrl (s : String) : Bool :=
  s ≠ "" &&
  (testTiktok s || testYoutubeWatch s || testYoutubeLive s ||
   testYoutubeShorts s || testYoutubeShort s || testTwitch s)

/-! ## Watch-list priority rate (src/src/utils/priority.js, file src/unnamed/part_008) -/

/-- Embeds `getCheckRateForPriority` from src/src/utils/priority.js.

The input models `parseInt(priority) || 0`: `none` stands for a priority
whose `parseInt` is `NaN` (missing or non-numeric), which the `|| 0` turns
into `0`.

The source computes
`Math.round(BASE + (MAX - BASE) * Math.pow(2, -k * clamped / PRIORITY_MAX))`.
The exponent `-(k * clamped) / 100` is an integer exactly when
`100 ∣ k * clamped` (that is, `25 ∣ clamped`); only there is the value of the
power a rational number (and there the double-precision evaluation is also
exact). The embedding returns `none` when the exponent is not an integer —
the exact real value is irrational and the spec's stated rate values never
touch that region. -/
def getCheckRateForPriority (priority : Option Int) : Option Int :=
  let p : Int := priority.getD 0
  let clampedPriority : Int := max PRIORITY_MIN (min PRIORITY_MAX p)
  if PRIORITY_ALWAYS_CHECK ≤ clampedPriority then some 0
  else
    if PRIORITY_MAX ∣ PRIORITY_STEEPNESS_FACTOR * clampedPriority then
      let e : Int := PRIORITY_STEEPNESS_FACTOR * clampedPriority / PRIORITY_MAX
      let additionalTime : ℚ :=
        ((MAX_CHECK_RATE - BASE_CHECK_RATE : ℤ) : ℚ) * (2 : ℚ) ^ (-e)
      some (round ((BASE_CHECK_RATE : ℚ) + additionalTime))
    else none

/-! ## Prioritizer (src/lib/streamPrioritizer.js) -/

/-- A stream object as read by the prioritizer: `last_checked_at`, `status`
and `last_live_at`. Timestamps are integers; a falsy (absent/empty) field is
`none`. -/
structure Stream where
  last_checked_at : Option Int
  status : Option String
  last_live_at : Option Int
  deriving DecidableEq, Repr

/-- Embeds `getStreamPriority(stream, now)` from src/lib/streamPrioritizer.js. -/
def getStreamPriority (stream : Stream) (now : Int) : Int :=
  if stream.last_checked_at = none then 3
  else if stream.status.map String.toLower = some "live" then 2
  else
    match stream.last_live_at with
    | some lastLive => if now - lastLive ≤ 20 * 60 * 1000 then 1 else 0
    | none => 0

/-- Embeds `prioritizeStreams(streams)` from src/lib/streamPrioritizer.js:
`[...streams].sort((a, b) => getStreamPriority(b, now) - getStreamPriority(a, now))`.

`Array.prototype.sort` is stable (ECMAScript 2019+), and a stable sort by a
fixed comparator has a unique result, so the copy-then-sort is embedded as
insertion sort by the relation "a may precede b", i.e.
`getStreamPriority b now ≤ getStreamPriority a now`. `Date.now()` is taken
as the explicit argument `now`. -/
def prioritizeStreams (streams : List Stream) (now : Int) : List Stream :=
  List.insertionSort (fun a b => getStreamPriority b now ≤ getStreamPriority a now) streams

/-! ## Association lists modelling JavaScript `Map` (insertion order preserved) -/

/-- Models `Map.prototype.get`: value of the first (unique) entry with this key. -/
def lookupAssoc {β : Type} (m : List (String × β)) (k : String) : Option β :=
  match m with
  | [] => none
  | (k', v) :: rest => if k' = k then some v else lookupAssoc rest k

/-- Models `Map.prototype.set`: overwrite in place if the key is present, else
append at the end (JS `Map` keeps the original insertion position on
overwrite). -/
def setAssoc {β : Type} (m : List (String × β)) (k : String) (v : β) : List (String × β) :=
  match m with
  | [] => [(k, v)]
  | (k', v') :: rest => if k' = k then (k, v) :: rest else (k', v') :: setAssoc rest k v

/-! ## Sheet rows and the check orchestrator
(src/src/services/streamChecker.js `checkStatus`, file src/unnamed/part_003) -/

/-- An active-set (Livesheet) row, with the columns the pipeline reads:
`Link`, `Status`, `Last Checked (PST)`, `Last Live (PST)`, `Added Date`.
Timestamp cells are integers; a falsy (absent/empty) cell is `none`. -/
structure SheetRow where
  link : Option String
  status : Option String
  lastChecked : Option Int
  lastLive : Option Int
  addedDate : Option Int
  deriving DecidableEq, Repr

/-- Result of the external `fetchUrlStatus` (the StatusDetector): `none`
models a network error, timeout, non-200 response or WAF/challenge page. -/
structure UrlStatus where
  status : String
  platform : String
  deriving DecidableEq, Repr

/-- Embeds `checkStatus(row, i, sheet)` from src/src/services/streamChecker.js
(file src/unnamed/part_003, lines 109–161), as a function of the pending-update
map it mutates. The external detector is the argument `fetchResult` (what
`await fetchUrlStatus(url)` returns for each url); `now` is `Date.now()`.
The pending map stores url ↦ staged status (the committer reads only
`status` from the stored `{row, status, index}` object). The function
performs no row writes — it only stages into the map.

`checkRateLimited` is the rate-limit block (lines 131–148): live rows use
`RATE_LIVE`, others `RATE_OFF`, and a recently-live row uses `RATE_LIVE`
regardless; a never-checked row is never rate limited. -/
def checkRateLimited (now : Int) (row : SheetRow) : Bool :=
  match row.lastChecked with
  | none => false
  | some lastChecked =>
    let timeSinceLastCheck := now - lastChecked
    let rateLimit := if row.status = some STATUS_LIVE then RATE_LIVE else RATE_OFF
    let recentlyLive : Bool :=
      match row.lastLive with
      | some lastLive => decide (now - lastLive ≤ RECENTLY_LIVE_THRESHOLD)
      | none => false
    let effectiveRateLimit := if recentlyLive then RATE_LIVE else rateLimit
    decide (timeSinceLastCheck < effectiveRateLimit)

def checkStatus (fetchResult : String → Option UrlStatus) (now : Int) (row : SheetRow)
    (pendingUpdates : List (String × String)) : List (String × String) :=
  match row.link with
  | none => pendingUpdates
  | some url =>
    let cleanedUrl := cleanUrl url
    if ¬ isValidLiveUrl cleanedUrl then pendingUpdates
    else
      if checkRateLimited now row then pendingUpdates
      else
        match fetchResult cleanedUrl with
        | none => pendingUpdates
        | some result => setAssoc pendingUpdates cleanedUrl result.status

/-! ## Batch committer

Two implementations exist in the repository and both are embedded:
`batchUpdateRows(cycleStartTime)` in src/main.js (the later, known-streamers
variant of that file) and `batchUpdateRows(sheet, pendingUpdates,
cycleStartTime)` in src/src/services/batchUpdater.js. External effects are
inputs: `fetchRows` is what `await sheet.getRows()` returns (`none` = the
re-fetch threw), `saveOk url` tells whether `freshRow.save()` for the row
found under `url` succeeds, `now` is the timestamp written
(`new Date().toISOString()`). -/

/-- The new field values `freshRow.assign(updates)` leaves on the row:
`Status` and `Last Checked (PST)` always; `Last Live (PST)` only when the
staged status is `Live`; `Added Date` only when previously unset. -/
def assignUpdates (freshRow : SheetRow) (status : String) (now : Int) : SheetRow :=
  { freshRow with
    status := some status
    lastChecked := some now
    lastLive := if status = STATUS_LIVE then some now else freshRow.lastLive
    addedDate := if freshRow.addedDate = none then some now else freshRow.addedDate }

/-- Result state of one `batchUpdateRows` call. `writes` lists the rows
actually persisted by a successful `freshRow.save()` (keyed by the lookup
url), in order; `saveErrors` lists the urls whose save threw and was logged
(`ERROR saving row for ...`); `pending` is the pending-update map after the
call. -/
structure BatchResult where
  updatedCount : Nat
  skippedCount : Nat
  writes : List (String × SheetRow)
  saveErrors : List String
  pending : List (String × String)
  deriving DecidableEq, Repr

/-- src/main.js: one fresh row entering the lookup map — keyed by
`getField(row, 'Link')?.trim()` (trimmed only, NOT passed through
`cleanUrl`), skipping falsy (missing or empty) keys. -/
def freshInsertMain (m : List (String × SheetRow)) (row : SheetRow) : List (String × SheetRow) :=
  match row.link with
  | none => m
  | some l => let url := jsTrim l; if url ≠ "" then setAssoc m url row else m

/-- src/main.js: the fresh-row map (`freshRowMap`). -/
def buildFreshRowMapMain (rows : List SheetRow) : List (String × SheetRow) :=
  rows.foldl freshInsertMain []

/-- src/src/services/batchUpdater.js: one fresh row entering the lookup map —
keyed by the raw `getField(row, 'Link', sheet)` value (no trimming, no
cleaning), skipping falsy keys. -/
def freshInsertService (m : List (String × SheetRow)) (row : SheetRow) :
    List (String × SheetRow) :=
  match row.link with
  | none => m
  | some url => if url ≠ "" then setAssoc m url row else m

/-- src/src/services/batchUpdater.js: the fresh-row map (`rowsByUrl`). -/
def buildFreshRowMapService (rows : List SheetRow) : List (String × SheetRow) :=
  rows.foldl freshInsertService []

/-- The optimistic-concurrency test: the fresh row's `Last Checked (PST)` is
set (truthy) and strictly newer than `cycleStartTime`. -/
def batchConflict (cycleStartTime : Int) (freshRow : SheetRow) : Bool :=
  match freshRow.lastChecked with
  | some t => decide (t > cycleStartTime)
  | none => false

/-- One iteration of the main.js commit loop over a pending entry
`(url, status)`: deleted row → skip-count; fresh `Last Checked (PST)`
after `cycleStartTime` → skip-count; otherwise assign and save, counting
the row as updated on success and — in this version — as skipped on a save
error. -/
def batchStepMain (rowsByUrl : List (String × SheetRow)) (cycleStartTime now : Int)
    (saveOk : String → Bool) (acc : BatchResult) (e : String × String) : BatchResult :=
  match lookupAssoc rowsByUrl e.1 with
  | none => { acc with skippedCount := acc.skippedCount + 1 }
  | some freshRow =>
    if batchConflict cycleStartTime freshRow then
      { acc with skippedCount := acc.skippedCount + 1 }
    else
      if saveOk e.1 then
        { acc with
          updatedCount := acc.updatedCount + 1
          writes := acc.writes ++ [(e.1, assignUpdates freshRow e.2 now)] }
      else
        { acc with
          skippedCount := acc.skippedCount + 1
          saveErrors := acc.saveErrors ++ [e.1] }

/-- One iteration of the src/src/services/batchUpdater.js commit loop:
identical to the main.js step except that a save error is only logged —
`skipCount` is NOT incremented (`catch (e) { log(...) }` with no counter). -/
def batchStepService (rowsByUrl : List (String × SheetRow)) (cycleStartTime now : Int)
    (saveOk : String → Bool) (acc : BatchResult) (e : String × String) : BatchResult :=
  match lookupAssoc rowsByUrl e.1 with
  | none => { acc with skippedCount := acc.skippedCount + 1 }
  | some freshRow =>
    if batchConflict cycleStartTime freshRow then
      { acc with skippedCount := acc.skippedCount + 1 }
    else
      if saveOk e.1 then
        { acc with
          updatedCount := acc.updatedCount + 1
          writes := acc.writes ++ [(e.1, assignUpdates freshRow e.2 now)] }
      else
        { acc with saveErrors := acc.saveErrors ++ [e.1] }

/-- Classifies a pending entry as successfully written: its url resolves in
the fresh map, the concurrency test passes, and the save succeeds. -/
def entrySaved (rowsByUrl : List (String × SheetRow)) (cycleStartTime : Int)
    (saveOk : String → Bool) (e : String × String) : Bool :=
  match lookupAssoc rowsByUrl e.1 with
  | none => false
  | some freshRow => !batchConflict cycleStartTime freshRow && saveOk e.1

/-- Classifies a pending entry as counted skipped by the main.js committer:
deleted, concurrently modified, or its save failed. -/
def entrySkippedMain (rowsByUrl : List (String × SheetRow)) (cycleStartTime : Int)
    (saveOk : String → Bool) (e : String × String) : Bool :=
  match lookupAssoc rowsByUrl e.1 with
  | none => true
  | some freshRow => batchConflict cycleStartTime freshRow || !saveOk e.1

/-- Classifies a pending entry as counted skipped by the service committer:
deleted or concurrently modified — a failed save is in neither count there. -/
def entrySkippedService (rowsByUrl : List (String × SheetRow)) (cycleStartTime : Int)
    (e : String × String) : Bool :=
  match lookupAssoc rowsByUrl e.1 with
  | none => true
  | some freshRow => batchConflict cycleStartTime freshRow

/-- The write a pending entry produces when it is saved successfully. -/
def entryWrite (rowsByUrl : List (String × SheetRow)) (cycleStartTime now : Int)
    (saveOk : String → Bool) (e : String × String) : Option (String × SheetRow) :=
  match lookupAssoc rowsByUrl e.1 with
  | none => none
  | some freshRow =>
    if batchConflict cycleStartTime freshRow then none
    else if saveOk e.1 then some (e.1, assignUpdates freshRow e.2 now)
    else none

/-- The logged save-error a pending entry produces. -/
def entrySaveError (rowsByUrl : List (String × SheetRow)) (cycleStartTime : Int)
    (saveOk : String → Bool) (e : String × String) : Option String :=
  match lookupAssoc rowsByUrl e.1 with
  | none => none
  | some freshRow =>
    if batchConflict cycleStartTime freshRow then none
    else if saveOk e.1 then none
    else some e.1

/-- Embeds `batchUpdateRows(cycleStartTime)` from src/main.js (the known-streamers
variant, lines 472–555 of the concatenated file): early return on an empty
map; on a fresh-fetch failure the catch logs and clears the map; otherwise
process every pending entry and clear the map. -/
def batchUpdateRowsMain (fetchRows : Option (List SheetRow))
    (pendingUpdates : List (String × String)) (cycleStartTime now : Int)
    (saveOk : String → Bool) : BatchResult :=
  if pendingUpdates = [] then
    { updatedCount := 0, skippedCount := 0, writes := [], saveErrors := [],
      pending := pendingUpdates }
  else
    match fetchRows with
    | none =>
      { updatedCount := 0, skippedCount := 0, writes := [], saveErrors := [], pending := [] }
    | some freshRows =>
      let rowsByUrl := buildFreshRowMapMain freshRows
      let acc := pendingUpdates.foldl (batchStepMain rowsByUrl cycleStartTime now saveOk)
        { updatedCount := 0, skippedCount := 0, writes := [], saveErrors := [],
          pending := pendingUpdates }
      { acc with pending := [] }

/-- Embeds `batchUpdateRows(sheet, pendingUpdates, cycleStartTime)` from
src/src/services/batchUpdater.js (lines 14–90): same shape, raw-link keyed
fresh map, save errors logged but not counted, map cleared in `finally`. -/
def batchUpdateRowsService (fetchRows : Option (List SheetRow))
    (pendingUpdates : List (String × String)) (cycleStartTime now : Int)
    (saveOk : String → Bool) : BatchResult :=
  if pendingUpdates = [] then
    { updatedCount := 0, skippedCount := 0, writes := [], saveErrors := [],
      pending := pendingUpdates }
  else
    match fetchRows with
    | none =>
      { updatedCount := 0, skippedCount := 0, writes := [], saveErrors := [], pending := [] }
    | some freshRows =>
      let rowsByUrl := buildFreshRowMapService freshRows
      let acc := pendingUpdates.foldl (batchStepService rowsByUrl cycleStartTime now saveOk)
        { updatedCount := 0, skippedCount := 0, writes := [], saveErrors := [],
          pending := pendingUpdates }
      { acc with pending := [] }

/-! ## Archiver (`archiveExpiredStreams`, file src/unnamed/part_002) -/

/-- A stream record as returned by
`streamSourceClient.getExpiredOfflineStreams` (the archive-candidate query). -/
structure ArchStream where
  id : Int
  status : String
  last_live_at : Option Int
  updated_at : Int
  deriving DecidableEq, Repr

/-- Result of one `archiveExpiredStreams` run. `archivedIds` are the streams
archived via `archiveStream`, in order; `stateChangedIds` are the candidates
skipped by the re-verification with the `state changed, skipping archive`
log. -/
structure ArchiveResult where
  archivedCount : Nat
  errorCount : Nat
  archivedIds : List Int
  stateChangedIds : List Int
  deriving DecidableEq, Repr

/-- The archive-time re-verification's failure condition (file
src/unnamed/part_002, lines 35–42): the status is no longer
offline/unknown, or the age (in minutes, with `last_live_at` falling back to
`updated_at`) is below the threshold — then the candidate is skipped with the
`state changed, skipping archive` log. -/
def archiveReverifySkip (thresholdMinutes : ℚ) (currentTime : Int) (stream : ArchStream) : Bool :=
  let lastLiveTime := stream.last_live_at.getD stream.updated_at
  let diffMinutes : ℚ := ((currentTime - lastLiveTime : Int) : ℚ) / 60000
  (decide (stream.status ≠ "offline") && decide (stream.status ≠ "unknown")) ||
    decide (diffMinutes < thresholdMinutes)

/-- One iteration of the archive loop (file src/unnamed/part_002, lines
31–54) for the candidate at position `p.1`: re-verify with the current time,
skip with a state-changed log on failure, otherwise archive — an archive
failure only increments `errorCount` and the loop continues. -/
def archiveStep (thresholdMinutes : ℚ) (clock : Nat → Int) (archiveOk : Int → Bool)
    (acc : ArchiveResult) (p : Nat × ArchStream) : ArchiveResult :=
  let stream := p.2
  if archiveReverifySkip thresholdMinutes (clock p.1) stream then
    { acc with stateChangedIds := acc.stateChangedIds ++ [stream.id] }
  else if archiveOk stream.id then
    { acc with
      archivedCount := acc.archivedCount + 1
      archivedIds := acc.archivedIds ++ [stream.id] }
  else { acc with errorCount := acc.errorCount + 1 }

/-- Embeds `archiveExpiredStreams(streamSourceClient, thresholdMinutes)` from file
src/unnamed/part_002, as a function of the candidate list the query returned.
`clock i` is the `new Date()` taken at iteration `i` (the loop re-reads the
clock each time around); `archiveOk id` tells whether
`streamSourceClient.archiveStream(id)` succeeds or throws. The 100 ms pacing
delay has no observable effect beyond the advancing clock. -/
def archiveExpiredStreams (expiredStreams : List ArchStream) (thresholdMinutes : ℚ)
    (clock : Nat → Int) (archiveOk : Int → Bool) : ArchiveResult :=
  expiredStreams.enum.foldl (archiveStep thresholdMinutes clock archiveOk)
    { archivedCount := 0, errorCount := 0, archivedIds := [], stateChangedIds := [] }

/-- The candidate filter of `getExpiredOfflineStreams` in
src/lib/streamSourceClient.js (lines 208–221): status must be
offline/unknown, and the age — `last_live_at` if set (truthy), else
`updated_at` — must exceed `thresholdMs = thresholdMinutes * 60 * 1000` at
the query-time clock `tq`. -/
def isExpiredOfflineStream (tq : Int) (thresholdMinutes : ℚ) (stream : ArchStream) : Bool :=
  if stream.status ≠ "offline" ∧ stream.status ≠ "unknown" then false
  else
    match stream.last_live_at with
    | some lastLive => decide (((tq - lastLive : Int) : ℚ) > thresholdMinutes * 60 * 1000)
    | none => decide (((tq - stream.updated_at : Int) : ℚ) > thresholdMinutes * 60 * 1000)

/-- The filtering step of `getExpiredOfflineStreams` applied to the fetched
(non-archived) streams: what the archive-candidate query returns. The
records in its output are the same in-memory objects `archiveExpiredStreams`
later re-verifies — the loop performs no re-fetch. -/
def getExpiredOfflineStreamsFilter (tq : Int) (thresholdMinutes : ℚ)
    (allStreams : List ArchStream) : List ArchStream :=
  allStreams.filter (isExpiredOfflineStream tq thresholdMinutes)

/-! ## Known-streamers promoter
(`checkKnownStreamers`, src/src/services/knownStreamers.js, file src/unnamed/part_011) -/

/-- A watch-list (Known Streamers) row: `URL`, `Source`, `City`, `State` and
the `Priority` cell after `parseInt` (`none` = `NaN`, i.e. missing or
non-numeric; the source's `|| 0` is applied where the value is used). -/
structure KnownRow where
  url : Option String
  source : Option String
  city : Option String
  state : Option String
  priorityRaw : Option Int
  deriving DecidableEq, Repr

/-- An element of the `sortedStreamers` array:
`{ streamer, priority, originalIdx }`. -/
structure KnownEntry where
  row : KnownRow
  priority : Int
  originalIdx : Nat
  deriving DecidableEq, Repr

/-- The priority-descending stable sort at the top of `checkKnownStreamers`:
`knownStreamers.map((streamer, idx) => ({streamer, priority, originalIdx}))
               .sort((a, b) => b.priority - a.priority)`
(stable, embedded like `prioritizeStreams`). -/
def sortKnownStreamers (knownStreamers : List KnownRow) : List KnownEntry :=
  List.insertionSort (fun a b => b.priority ≤ a.priority)
    (knownStreamers.enum.map fun p =>
      { row := p.2, priority := p.2.priorityRaw.getD 0, originalIdx := p.1 })

/-- The row `sheet.addRow({...})` inserts into the Livesheet when a known
streamer is found live. -/
structure AddedRow where
  link : String
  platform : String
  city : String
  state : String
  status : String
  lastChecked : Int
  lastLive : Int
  addedDate : Int
  source : String
  deriving DecidableEq, Repr

/-- State threaded through the `checkKnownStreamers` loop: the module-level
`knownStreamersLastCheck` map plus the per-run counters and the rows added
to the Livesheet. -/
structure KnownState where
  lastCheck : List (String × Int)
  checkedCount : Nat
  addedCount : Nat
  skippedRateLimit : Nat
  skippedInvalid : Nat
  skippedAlreadyInLivesheet : Nat
  offlineCount : Nat
  added : List AddedRow
  deriving DecidableEq, Repr

/-- Embeds `isUrlInLivesheet(url, livesheetRows, sheet)` from
src/src/services/knownStreamers.js: some row's cleaned `Link` equals the
cleaned url. -/
def isUrlInLivesheet (url : String) (livesheetLinks : List (Option String)) : Bool :=
  livesheetLinks.any fun rowUrl =>
    match rowUrl with
    | some r => decide (cleanUrl r = cleanUrl url)
    | none => false

/-- One iteration of the `checkKnownStreamers` loop (file src/unnamed/part_011,
lines 85–169), in source order: missing URL → plain skip; invalid URL →
`skippedInvalid`; rate-limit test against the per-URL `lastCheck` map
(`knownStreamersLastCheck.get(url) || 0`); per-cycle cap test
(`checkedCount >= MAX_KNOWN_STREAMERS_PER_CYCLE`); `lastCheck.set(url, now)`;
already-in-Livesheet test; `checkedCount++`; detector call; on `Live`,
`sheet.addRow`. Returns `none` when the exact rate for this entry's priority
is outside the embeddable (integer-exponent) domain of
`getCheckRateForPriority` — see there. -/
def knownStep (livesheetLinks : List (Option String)) (now : Int)
    (fetchResult : String → Option UrlStatus) (st : KnownState) (entry : KnownEntry) :
    Option KnownState :=
  match entry.row.url with
  | none => some st
  | some rawUrl =>
    let url := cleanUrl rawUrl
    if ¬ isValidLiveUrl url then
      some { st with skippedInvalid := st.skippedInvalid + 1 }
    else
      let lastCheck := (lookupAssoc st.lastCheck url).getD 0
      match getCheckRateForPriority (some entry.priority) with
      | none => none
      | some rate =>
        if now - lastCheck < rate then
          some { st with skippedRateLimit := st.skippedRateLimit + 1 }
        else if MAX_KNOWN_STREAMERS_PER_CYCLE ≤ st.checkedCount then
          some { st with skippedRateLimit := st.skippedRateLimit + 1 }
        else
          let st := { st with lastCheck := setAssoc st.lastCheck url now }
          if isUrlInLivesheet url livesheetLinks then
            some { st with skippedAlreadyInLivesheet := st.skippedAlreadyInLivesheet + 1 }
          else
            let st := { st with checkedCount := st.checkedCount + 1 }
            match fetchResult url with
            | none => some st
            | some result =>
              if result.status = STATUS_LIVE then
                some { st with
                  addedCount := st.addedCount + 1
                  added := st.added ++ [{
                    link := url
                    platform := result.platform
                    city := entry.row.city.getD ""
                    state := entry.row.state.getD ""
                    status := STATUS_LIVE
                    lastChecked := now
                    lastLive := now
                    addedDate := now
                    source := entry.row.source.getD "" }] }
              else some { st with offlineCount := st.offlineCount + 1 }

/-- Embeds `checkKnownStreamers(sheet, knownStreamersSheet)` from file
src/unnamed/part_011: sort by priority (stable, descending), then run the
loop. `livesheetLinks` are the `Link` cells of `await sheet.getRows()`;
`lastCheck₀` is the module-level `knownStreamersLastCheck` map carried over
from earlier cycles; `now` is the `Date.now()` taken once at the top. -/
def checkKnownStreamers (knownStreamers : List KnownRow)
    (livesheetLinks : List (Option String)) (lastCheck₀ : List (String × Int))
    (now : Int) (fetchResult : String → Option UrlStatus) : Option KnownState :=
  (sortKnownStreamers knownStreamers).foldlM (knownStep livesheetLinks now fetchResult)
    { lastCheck := lastCheck₀, checkedCount := 0, addedCount := 0, skippedRateLimit := 0,
      skippedInvalid := 0, skippedAlreadyInLivesheet := 0, offlineCount := 0, added := [] }

/-- The spec's promoter scenario: fifteen watch-list rows, all at priority
100, with distinct valid URLs. -/
def fifteenKnownRows : List KnownRow :=
  ["https://twitch.tv/s01", "https://twitch.tv/s02", "https://twitch.tv/s03",
   "https://twitch.tv/s04", "https://twitch.tv/s05", "https://twitch.tv/s06",
   "https://twitch.tv/s07", "https://twitch.tv/s08", "https://twitch.tv/s09",
   "https://twitch.tv/s10", "https://twitch.tv/s11", "https://twitch.tv/s12",
   "https://twitch.tv/s13", "https://twitch.tv/s14", "https://twitch.tv/s15"].map
    fun u =>
      { url := some u, source := none, city := none, state := none, priorityRaw := some 100 }

/-! ## StreamSource client retry behaviour (src/lib/streamSourceClient.js `request`) -/

/-- HTTP `response.ok`. -/
def httpOk (status : Nat) : Bool :=
  200 ≤ status && status < 300

/-- Observable outcome of one logical `request(endpoint, options)` call:
how many times the underlying `fetch` ran and how many times a 401 made the
client null its token and call `authenticate()` before retrying. -/
structure RequestOutcome where
  attempts : Nat
  reauths : Nat
  success : Bool
  deriving DecidableEq, Repr

/-- Embeds `request(endpoint, options)` from src/lib/streamSourceClient.js (lines
51–113), as a function of the HTTP statuses the server answers to the
successive attempts of this one request. On a non-ok status of 401 with
authentication in play the code does `this.token = null; await
this.authenticate(); return this.request(endpoint, options);` — a bare
recursive call carrying no retry flag. `authenticate()` is assumed to
succeed (it uses `skipAuth: true` on a separate endpoint and is not part of
this trace). An exhausted trace ends the recursion, so a finite trace gives
a lower bound on the attempts the real loop performs. -/
def requestRun (skipAuth : Bool) : List Nat → RequestOutcome
  | [] => { attempts := 0, reauths := 0, success := false }
  | status :: rest =>
    if httpOk status then { attempts := 1, reauths := 0, success := true }
    else if status = 401 ∧ skipAuth = false then
      let o := requestRun skipAuth rest
      { o with attempts := o.attempts + 1, reauths := o.reauths + 1 }
    else { attempts := 1, reauths := 0, success := false }

/-! ## Theorems -/

example : getCheckRateForPriority (some 100) = some 0 := by decide

example : getCheckRateForPriority (some 0) = some 5400000 := by
  norm_num [getCheckRateForPriority, PRIORITY_MIN, PRIORITY_MAX, PRIORITY_ALWAYS_CHECK,
    PRIORITY_STEEPNESS_FACTOR, BASE_CHECK_RATE, MAX_CHECK_RATE, MINUTE, round_eq]

example : getCheckRateForPriority (some 50) = some 2025000 := by
  norm_num [getCheckRateForPriority, PRIORITY_MIN, PRIORITY_MAX, PRIORITY_ALWAYS_CHECK,
    PRIORITY_STEEPNESS_FACTOR, BASE_CHECK_RATE, MAX_CHECK_RATE, MINUTE, round_eq]

example : getCheckRateForPriority (some 30) = none := by decide

example : getCheckRateForPriority (some 150) = some 0 := by decide

example : isValidLiveUrl "https://twitch.tv/somestreamer" = true := by decide

example : isValidLiveUrl "https://www.twitch.tv/somestreamer/" = true := by decide

example : isValidLiveUrl "https://twitch.tv/some/path" = false := by decide

example : isValidLiveUrl "https://twitch.tv/" = false := by decide

example : isValidLiveUrl "https://www.youtube.com/shorts/abc123" = true := by decide

example : isValidLiveUrl "https://www.tiktok.com/@user/live?lang=en" = true := by decide

example : isValidLiveUrl "https://youtube.com/watch?v=abc" = true := by decide

example : isValidLiveUrl "https://youtu.be/abc" = true := by decide

example : isValidLiveUrl "" = false := by decide

/-- Key stability fact: inserting `a` into any list puts it in front of every
element of equal priority and removes/adds nothing else, so filtering at any
fixed priority level commutes with `orderedInsert`. -/
theorem orderedInsert_filter_priority (now k : Int) (a : Stream) (l : List Stream) :
    (List.orderedInsert (fun a b => getStreamPriority b now ≤ getStreamPriority a now) a l).filter
        (fun s => decide (getStreamPriority s now = k)) =
      if getStreamPriority a now = k then
        a :: l.filter (fun s => decide (getStreamPriority s now = k))
      else l.filter (fun s => decide (getStreamPriority s now = k)) := by
  induction l with
  | nil =>
    by_cases h : getStreamPriority a now = k <;>
      simp [List.orderedInsert, List.filter, h]
  | cons b t ih =>
    by_cases hba : getStreamPriority b now ≤ getStreamPriority a now
    · simp only [List.orderedInsert, if_pos hba]
      by_cases h : getStreamPriority a now = k <;>
        simp [List.filter_cons, h]
    · simp only [List.orderedInsert, if_neg hba]
      simp only [List.filter_cons]
      rw [ih]
      by_cases ha : getStreamPriority a now = k
      · have hb : getStreamPriority b now ≠ k := fun hb => hba (le_of_eq (hb.trans ha.symm))
        simp [ha, hb]
      · by_cases hb : getStreamPriority b now = k <;> simp [ha, hb]

/-- Stability of the prioritizer's sort: the subsequence of entries at any
fixed priority tier is exactly the input's subsequence at that tier. -/
theorem prioritizeStreams_filter_priority (streams : List Stream) (now k : Int) :
    (prioritizeStreams streams now).filter (fun s => decide (getStreamPriority s now = k)) =
      streams.filter (fun s => decide (getStreamPriority s now = k)) := by
  induction streams with
  | nil => rfl
  | cons a l ih =>
    unfold prioritizeStreams at *
    rw [List.insertionSort, orderedInsert_filter_priority now k a, ih]
    by_cases h : getStreamPriority a now = k <;> simp [List.filter_cons, h]

/-- Two priorities with the same clamped value get the same rate. -/
theorem getCheckRateForPriority_congr_clamp (p q : Int)
    (h : max PRIORITY_MIN (min PRIORITY_MAX p) = max PRIORITY_MIN (min PRIORITY_MAX q)) :
    getCheckRateForPriority (some p) = getCheckRateForPriority (some q) := by
  simp only [getCheckRateForPriority, Option.getD_some]
  rw [h]

/-- C4: the watch-list rate function satisfies the spec's stated values:
`rate(100) = 0`; `rate(0) = 90 min`; `rate(50) = 2 025 000 ms`, which equals
the closed form `15min + 75min·2⁻²` (33.75 min) and rounds to 34 minutes;
a non-numeric (`parseInt → NaN`) or negative priority yields the same rate
as priority 0; a priority above 100 yields the same rate as priority 100,
namely 0. -/
theorem getCheckRateForPriority_spec :
    getCheckRateForPriority (some 100) = some 0 ∧
    getCheckRateForPriority (some 0) = some (90 * MINUTE) ∧
    getCheckRateForPriority (some 50) = some 2025000 ∧
    (2025000 : ℚ) = 15 * 60000 + 75 * 60000 * (2 : ℚ) ^ (-2 : ℤ) ∧
    round ((2025000 : ℚ) / 60000) = 34 ∧
    getCheckRateForPriority none = getCheckRateForPriority (some 0) ∧
    (∀ p : Int, p < 0 → getCheckRateForPriority (some p) = getCheckRateForPriority (some 0)) ∧
    (∀ p : Int, 100 < p →
      getCheckRateForPriority (some p) = getCheckRateForPriority (some 100)) := by
  refine ⟨by decide, ?_, ?_, by norm_num, by norm_num [round_eq], rfl, ?_, ?_⟩
  · norm_num [getCheckRateForPriority, PRIORITY_MIN, PRIORITY_MAX, PRIORITY_ALWAYS_CHECK,
      PRIORITY_STEEPNESS_FACTOR, BASE_CHECK_RATE, MAX_CHECK_RATE, MINUTE, round_eq]
  · norm_num [getCheckRateForPriority, PRIORITY_MIN, PRIORITY_MAX, PRIORITY_ALWAYS_CHECK,
      PRIORITY_STEEPNESS_FACTOR, BASE_CHECK_RATE, MAX_CHECK_RATE, MINUTE, round_eq]
  · intro p hp
    refine getCheckRateForPriority_congr_clamp p 0 ?_
    simp only [PRIORITY_MIN, PRIORITY_MAX]
    omega
  · intro p hp
    refine getCheckRateForPriority_congr_clamp p 100 ?_
    simp only [PRIORITY_MIN, PRIORITY_MAX]
    omega

/-- Witness for C4 at concrete out-of-range priorities. -/
theorem getCheckRateForPriority_spec_witness :
    getCheckRateForPriority (some (-5)) = getCheckRateForPriority (some 0) ∧
    getCheckRateForPriority (some 150) = getCheckRateForPriority (some 100) :=
  ⟨getCheckRateForPriority_spec.2.2.2.2.2.2.1 (-5) (by norm_num),
   getCheckRateForPriority_spec.2.2.2.2.2.2.2 150 (by norm_num)⟩

/-- C3: the prioritizer returns a copy of its input (a permutation — the
embedding is pure, so the input list itself is untouched), ordered by
non-increasing tier (all tier-3 entries precede tier-2, which precede
tier-1, which precede tier-0), and entries of equal tier keep their original
relative input order (the filter at each tier level is preserved — the
stable-sort characterization). -/
theorem prioritizeStreams_spec (streams : List Stream) (now : Int) :
    (prioritizeStreams streams now).Perm streams ∧
    List.Sorted (fun a b => getStreamPriority b now ≤ getStreamPriority a now)
      (prioritizeStreams streams now) ∧
    ∀ k : Int,
      (prioritizeStreams streams now).filter (fun s => decide (getStreamPriority s now = k)) =
        streams.filter (fun s => decide (getStreamPriority s now = k)) := by
  refine ⟨List.perm_insertionSort _ _, ?_, fun k => prioritizeStreams_filter_priority streams now k⟩
  haveI : IsTotal Stream (fun a b => getStreamPriority b now ≤ getStreamPriority a now) :=
    ⟨fun _ _ => le_total _ _⟩
  haveI : IsTrans Stream (fun a b => getStreamPriority b now ≤ getStreamPriority a now) :=
    ⟨fun _ _ _ hab hbc => le_trans hbc hab⟩
  exact List.sorted_insertionSort _ _

/-- C2: both batch committers leave the pending-update map empty after every
call — empty input, successful run, individual save failures, or a fresh
re-fetch that threw. -/
theorem batchUpdateRows_always_clears (fetchRows : Option (List SheetRow))
    (pendingUpdates : List (String × String)) (cycleStartTime now : Int)
    (saveOk : String → Bool) :
    (batchUpdateRowsMain fetchRows pendingUpdates cycleStartTime now saveOk).pending = [] ∧
    (batchUpdateRowsService fetchRows pendingUpdates cycleStartTime now saveOk).pending = [] := by
  constructor
  · unfold batchUpdateRowsMain
    by_cases h : pendingUpdates = []
    · simp [h]
    · cases fetchRows <;> simp [h]
  · unfold batchUpdateRowsService
    by_cases h : pendingUpdates = []
    · simp [h]
    · cases fetchRows <;> simp [h]

/-- Full characterization of the main.js commit loop: starting from any
accumulator, each pending entry contributes to exactly the counters, writes
and logged save errors its classification predicts. -/
theorem batchFoldMain_eq (rowsByUrl : List (String × SheetRow)) (cs now : Int)
    (saveOk : String → Bool) (pending : List (String × String)) :
    ∀ acc : BatchResult,
      pending.foldl (batchStepMain rowsByUrl cs now saveOk) acc =
        { updatedCount := acc.updatedCount + pending.countP (entrySaved rowsByUrl cs saveOk),
          skippedCount := acc.skippedCount + pending.countP (entrySkippedMain rowsByUrl cs saveOk),
          writes := acc.writes ++ pending.filterMap (entryWrite rowsByUrl cs now saveOk),
          saveErrors := acc.saveErrors ++ pending.filterMap (entrySaveError rowsByUrl cs saveOk),
          pending := acc.pending } := by
  induction pending with
  | nil => intro acc; simp
  | cons e rest ih =>
    intro acc
    rcases hL : lookupAssoc rowsByUrl e.1 with _ | freshRow
    · have hstep : batchStepMain rowsByUrl cs now saveOk acc e =
          { acc with skippedCount := acc.skippedCount + 1 } := by
        simp [batchStepMain, hL]
      rw [List.foldl_cons, hstep, ih]
      simp only [List.countP_cons, List.filterMap_cons, entrySaved, entrySkippedMain,
        entryWrite, entrySaveError, hL]
      simp [BatchResult.mk.injEq] <;> omega
    · by_cases hc : batchConflict cs freshRow
      · have hstep : batchStepMain rowsByUrl cs now saveOk acc e =
            { acc with skippedCount := acc.skippedCount + 1 } := by
          simp [batchStepMain, hL, hc]
        rw [List.foldl_cons, hstep, ih]
        simp only [List.countP_cons, List.filterMap_cons, entrySaved, entrySkippedMain,
          entryWrite, entrySaveError, hL, hc]
        simp [BatchResult.mk.injEq] <;> omega
      · by_cases hs : saveOk e.1
        · have hstep : batchStepMain rowsByUrl cs now saveOk acc e =
              { acc with
                updatedCount := acc.updatedCount + 1
                writes := acc.writes ++ [(e.1, assignUpdates freshRow e.2 now)] } := by
            simp [batchStepMain, hL, hc, hs]
          rw [List.foldl_cons, hstep, ih]
          simp only [List.countP_cons, List.filterMap_cons, entrySaved, entrySkippedMain,
            entryWrite, entrySaveError, hL, eq_self_iff_true]
          simp [BatchResult.mk.injEq, hc, hs] <;> omega
        · have hstep : batchStepMain rowsByUrl cs now saveOk acc e =
              { acc with
                skippedCount := acc.skippedCount + 1
                saveErrors := acc.saveErrors ++ [e.1] } := by
            simp [batchStepMain, hL, hc, hs]
          rw [List.foldl_cons, hstep, ih]
          simp only [List.countP_cons, List.filterMap_cons, entrySaved, entrySkippedMain,
            entryWrite, entrySaveError, hL]
          simp [BatchResult.mk.injEq, hc, hs] <;> omega

/-- Full characterization of the src/src/services/batchUpdater.js commit
loop (save failures are logged but counted in neither counter). -/
theorem batchFoldService_eq (rowsByUrl : List (String × SheetRow)) (cs now : Int)
    (saveOk : String → Bool) (pending : List (String × String)) :
    ∀ acc : BatchResult,
      pending.foldl (batchStepService rowsByUrl cs now saveOk) acc =
        { updatedCount := acc.updatedCount + pending.countP (entrySaved rowsByUrl cs saveOk),
          skippedCount := acc.skippedCount + pending.countP (entrySkippedService rowsByUrl cs),
          writes := acc.writes ++ pending.filterMap (entryWrite rowsByUrl cs now saveOk),
          saveErrors := acc.saveErrors ++ pending.filterMap (entrySaveError rowsByUrl cs saveOk),
          pending := acc.pending } := by
  induction pending with
  | nil => intro acc; simp
  | cons e rest ih =>
    intro acc
    rcases hL : lookupAssoc rowsByUrl e.1 with _ | freshRow
    · have hstep : batchStepService rowsByUrl cs now saveOk acc e =
          { acc with skippedCount := acc.skippedCount + 1 } := by
        simp [batchStepService, hL]
      rw [List.foldl_cons, hstep, ih]
      simp only [List.countP_cons, List.filterMap_cons, entrySaved, entrySkippedService,
        entryWrite, entrySaveError, hL]
      simp [BatchResult.mk.injEq] <;> omega
    · by_cases hc : batchConflict cs freshRow
      · have hstep : batchStepService rowsByUrl cs now saveOk acc e =
            { acc with skippedCount := acc.skippedCount + 1 } := by
          simp [batchStepService, hL, hc]
        rw [List.foldl_cons, hstep, ih]
        simp only [List.countP_cons, List.filterMap_cons, entrySaved, entrySkippedService,
          entryWrite, entrySaveError, hL, hc]
        simp [BatchResult.mk.injEq] <;> omega
      · by_cases hs : saveOk e.1
        · have hstep : batchStepService rowsByUrl cs now saveOk acc e =
              { acc with
                updatedCount := acc.updatedCount + 1
                writes := acc.writes ++ [(e.1, assignUpdates freshRow e.2 now)] } := by
            simp [batchStepService, hL, hc, hs]
          rw [List.foldl_cons, hstep, ih]
          simp only [List.countP_cons, List.filterMap_cons, entrySaved, entrySkippedService,
            entryWrite, entrySaveError, hL]
          simp [BatchResult.mk.injEq, hc, hs] <;> omega
        · have hstep : batchStepService rowsByUrl cs now saveOk acc e =
              { acc with saveErrors := acc.saveErrors ++ [e.1] } := by
            simp [batchStepService, hL, hc, hs]
          rw [List.foldl_cons, hstep, ih]
          simp only [List.countP_cons, List.filterMap_cons, entrySaved, entrySkippedService,
            entryWrite, entrySaveError, hL]
          simp [BatchResult.mk.injEq, hc, hs] <;> omega

/-- Each pending entry is counted skipped by the main committer exactly when
it is not saved. -/
theorem entrySkippedMain_eq_not_saved (rowsByUrl : List (String × SheetRow)) (cs : Int)
    (saveOk : String → Bool) (e : String × String) :
    entrySkippedMain rowsByUrl cs saveOk e = !entrySaved rowsByUrl cs saveOk e := by
  unfold entrySkippedMain entrySaved
  cases lookupAssoc rowsByUrl e.1 with
  | none => rfl
  | some freshRow =>
    cases hc : batchConflict cs freshRow <;> cases hs : saveOk e.1 <;> simp [hc, hs]

/-- In the service committer each pending entry lands in exactly one of:
saved, counted skipped, or logged save error. -/
theorem service_accounts_all_entries (rowsByUrl : List (String × SheetRow)) (cs : Int)
    (saveOk : String → Bool) (pending : List (String × String)) :
    pending.countP (entrySaved rowsByUrl cs saveOk) +
      pending.countP (entrySkippedService rowsByUrl cs) +
      (pending.filterMap (entrySaveError rowsByUrl cs saveOk)).length = pending.length := by
  induction pending with
  | nil => rfl
  | cons e rest ih =>
    simp only [List.countP_cons, List.filterMap_cons, List.length_cons]
    have step :
        (entrySaved rowsByUrl cs saveOk e = true ∧
            entrySkippedService rowsByUrl cs e = false ∧
            entrySaveError rowsByUrl cs saveOk e = none) ∨
        (entrySaved rowsByUrl cs saveOk e = false ∧
            entrySkippedService rowsByUrl cs e = true ∧
            entrySaveError rowsByUrl cs saveOk e = none) ∨
        (entrySaved rowsByUrl cs saveOk e = false ∧
            entrySkippedService rowsByUrl cs e = false ∧
            entrySaveError rowsByUrl cs saveOk e = some e.1) := by
      unfold entrySaved entrySkippedService entrySaveError
      cases lookupAssoc rowsByUrl e.1 with
      | none => simp
      | some freshRow => cases hc : batchConflict cs freshRow <;> cases hs : saveOk e.1 <;> simp
    rcases step with ⟨h1, h2, h3⟩ | ⟨h1, h2, h3⟩ | ⟨h1, h2, h3⟩ <;>
      simp [h1, h2, h3] <;> omega

/-- Counting a predicate and its negation exhausts the list. -/
theorem countP_add_countP_not {α : Type} (p : α → Bool) (l : List α) :
    l.countP p + l.countP (fun a => !p a) = l.length := by
  induction l with
  | nil => rfl
  | cons a t ih => cases h : p a <;> simp [List.countP_cons, h] <;> omega

/-- The length of a `filterMap` counts the entries it keeps. -/
theorem length_filterMap_eq_countP {α β : Type} (f : α → Option β) (l : List α) :
    (l.filterMap f).length = l.countP (fun a => (f a).isSome) := by
  induction l with
  | nil => rfl
  | cons a t ih =>
    rw [List.filterMap_cons, List.countP_cons]
    cases h : f a <;> simp [h, ih]

/-- The whole main.js committer on a successful re-fetch, in closed form. -/
theorem batchUpdateRowsMain_eq (freshRows : List SheetRow)
    (pending : List (String × String)) (cs now : Int) (saveOk : String → Bool) :
    batchUpdateRowsMain (some freshRows) pending cs now saveOk =
      { updatedCount := pending.countP (entrySaved (buildFreshRowMapMain freshRows) cs saveOk),
        skippedCount :=
          pending.countP (entrySkippedMain (buildFreshRowMapMain freshRows) cs saveOk),
        writes := pending.filterMap (entryWrite (buildFreshRowMapMain freshRows) cs now saveOk),
        saveErrors :=
          pending.filterMap (entrySaveError (buildFreshRowMapMain freshRows) cs saveOk),
        pending := [] } := by
  by_cases hp : pending = []
  · subst hp; simp [batchUpdateRowsMain]
  · unfold batchUpdateRowsMain
    rw [if_neg hp]
    dsimp only
    rw [batchFoldMain_eq]
    simp

/-- The whole services/batchUpdater.js committer on a successful re-fetch,
in closed form. -/
theorem batchUpdateRowsService_eq (freshRows : List SheetRow)
    (pending : List (String × String)) (cs now : Int) (saveOk : String → Bool) :
    batchUpdateRowsService (some freshRows) pending cs now saveOk =
      { updatedCount :=
          pending.countP (entrySaved (buildFreshRowMapService freshRows) cs saveOk),
        skippedCount := pending.countP (entrySkippedService (buildFreshRowMapService freshRows) cs),
        writes :=
          pending.filterMap (entryWrite (buildFreshRowMapService freshRows) cs now saveOk),
        saveErrors :=
          pending.filterMap (entrySaveError (buildFreshRowMapService freshRows) cs saveOk),
        pending := [] } := by
  by_cases hp : pending = []
  · subst hp; simp [batchUpdateRowsService]
  · unfold batchUpdateRowsService
    rw [if_neg hp]
    dsimp only
    rw [batchFoldService_eq]
    simp

/-- C1 (amended): on every commit with a successful fresh re-fetch, in both
committers a pending update with no matching fresh row is counted as skipped
rather than raising, and one whose fresh row's last-checked timestamp is
strictly greater than `cycleStartTime` is counted as skipped (the skip
classifiers `entrySkippedMain`/`entrySkippedService` return `true` in exactly
those cases, plus — for main.js — the save-failure case); an individual row
save failure is logged (it appears in `saveErrors`) and processing continues
with the remaining updates — no whole-batch abort, as the counts exhaust the
map: `updated + skipped = pending.length` in main.js, and `updated + skipped
+ saveErrors = pending.length` in services/batchUpdater.js, whose skip count
does NOT include save failures. -/
theorem batchUpdateRows_error_handling (freshRows : List SheetRow)
    (pending : List (String × String)) (cs now : Int) (saveOk : String → Bool) :
    (batchUpdateRowsMain (some freshRows) pending cs now saveOk).skippedCount =
        pending.countP (entrySkippedMain (buildFreshRowMapMain freshRows) cs saveOk) ∧
    (batchUpdateRowsMain (some freshRows) pending cs now saveOk).updatedCount =
        pending.countP (entrySaved (buildFreshRowMapMain freshRows) cs saveOk) ∧
    (batchUpdateRowsMain (some freshRows) pending cs now saveOk).saveErrors =
        pending.filterMap (entrySaveError (buildFreshRowMapMain freshRows) cs saveOk) ∧
    (batchUpdateRowsMain (some freshRows) pending cs now saveOk).updatedCount +
        (batchUpdateRowsMain (some freshRows) pending cs now saveOk).skippedCount =
      pending.length ∧
    (batchUpdateRowsService (some freshRows) pending cs now saveOk).skippedCount =
        pending.countP (entrySkippedService (buildFreshRowMapService freshRows) cs) ∧
    (batchUpdateRowsService (some freshRows) pending cs now saveOk).updatedCount =
        pending.countP (entrySaved (buildFreshRowMapService freshRows) cs saveOk) ∧
    (batchUpdateRowsService (some freshRows) pending cs now saveOk).saveErrors =
        pending.filterMap (entrySaveError (buildFreshRowMapService freshRows) cs saveOk) ∧
    (batchUpdateRowsService (some freshRows) pending cs now saveOk).updatedCount +
        (batchUpdateRowsService (some freshRows) pending cs now saveOk).skippedCount +
        (batchUpdateRowsService (some freshRows) pending cs now saveOk).saveErrors.length =
      pending.length := by
  rw [batchUpdateRowsMain_eq, batchUpdateRowsService_eq]
  refine ⟨rfl, rfl, rfl, ?_, rfl, rfl, rfl, ?_⟩
  · have h := countP_add_countP_not
      (entrySaved (buildFreshRowMapMain freshRows) cs saveOk) pending
    have hc : pending.countP (entrySkippedMain (buildFreshRowMapMain freshRows) cs saveOk) =
        pending.countP (fun e => !entrySaved (buildFreshRowMapMain freshRows) cs saveOk e) :=
      List.countP_congr fun e _ => by
        rw [entrySkippedMain_eq_not_saved]
    dsimp only
    omega
  · have h := service_accounts_all_entries
      (buildFreshRowMapService freshRows) cs saveOk pending
    dsimp only
    omega

/-- C1 counterexample: in the services/batchUpdater.js committer a pending
update whose matching fresh row exists, passes the concurrency check and then
fails to save is logged as a save error but counted neither as updated nor as
skipped — `skippedCount = 0`, falsifying "counted as skipped". -/
theorem batchUpdateRowsService_save_failure_not_counted :
    batchUpdateRowsService
        (some [{ link := some "https://twitch.tv/a", status := some "Offline",
                 lastChecked := none, lastLive := none, addedDate := none }])
        [("https://twitch.tv/a", "Live")] 0 5 (fun _ => false) =
      { updatedCount := 0, skippedCount := 0, writes := [],
        saveErrors := ["https://twitch.tv/a"], pending := [] } := by
  decide

/-- Looking up a key after `setAssoc`. -/
theorem lookupAssoc_setAssoc {β : Type} (m : List (String × β)) (k k' : String) (v : β) :
    lookupAssoc (setAssoc m k v) k' = if k = k' then some v else lookupAssoc m k' := by
  induction m with
  | nil => simp [setAssoc, lookupAssoc]
  | cons p rest ih =>
    rcases p with ⟨k₀, v₀⟩
    by_cases h : k₀ = k
    · subst h
      simp only [setAssoc, if_pos rfl, lookupAssoc]
      by_cases h1 : k₀ = k' <;> simp [h1]
    · simp only [setAssoc, if_neg h, lookupAssoc, ih]
      by_cases h1 : k₀ = k'
      · by_cases h2 : k = k'
        · exact absurd (h2.trans h1.symm).symm h
        · simp [h1, h2]
      · by_cases h2 : k = k' <;> simp [h1, h2]

/-- Which keys the main.js fresh-row index contains, over any accumulator:
exactly the already-present keys plus the nonempty trimmed links of the
processed rows. -/
theorem lookup_foldFreshMain_isSome (rows : List SheetRow) (url : String) :
    ∀ acc : List (String × SheetRow),
      (lookupAssoc (rows.foldl freshInsertMain acc) url).isSome ↔
        ((lookupAssoc acc url).isSome ∨
          (url ≠ "" ∧ ∃ row ∈ rows, ∃ l, row.link = some l ∧ jsTrim l = url)) := by
  induction rows with
  | nil => intro acc; simp
  | cons row rest ih =>
    intro acc
    rw [List.foldl_cons, ih]
    have hstep : (lookupAssoc (freshInsertMain acc row) url).isSome ↔
        ((lookupAssoc acc url).isSome ∨
          (url ≠ "" ∧ ∃ l, row.link = some l ∧ jsTrim l = url)) := by
      unfold freshInsertMain
      cases hl : row.link with
      | none => simp
      | some l =>
        dsimp only
        by_cases hz : jsTrim l = ""
        · rw [if_neg (by simpa using hz)]
          constructor
          · exact Or.inl
          · rintro (h | ⟨hne, l', hl', heq⟩)
            · exact h
            · cases hl'
              exact absurd (heq ▸ hz) hne
        · rw [if_pos (by simpa using hz), lookupAssoc_setAssoc]
          by_cases he : jsTrim l = url
          · simp only [if_pos he, Option.isSome_some, true_iff]
            exact Or.inr ⟨he ▸ hz, l, rfl, he⟩
          · simp only [if_neg he]
            constructor
            · exact Or.inl
            · rintro (h | ⟨hne, l', hl', heq⟩)
              · exact h
              · cases hl'
                exact absurd heq he
    rw [hstep]
    constructor
    · rintro ((h | ⟨hne, l, hl, heq⟩) | ⟨hne, r, hr, l, hl, heq⟩)
      · exact Or.inl h
      · exact Or.inr ⟨hne, row, List.mem_cons_self row rest, l, hl, heq⟩
      · exact Or.inr ⟨hne, r, List.mem_cons_of_mem row hr, l, hl, heq⟩
    · rintro (h | ⟨hne, r, hr, l, hl, heq⟩)
      · exact Or.inl (Or.inl h)
      · rcases List.mem_cons.mp hr with rfl | hr
        · exact Or.inl (Or.inr ⟨hne, l, hl, heq⟩)
        · exact Or.inr ⟨hne, r, hr, l, hl, heq⟩

/-- Which keys the services/batchUpdater.js fresh-row index contains: exactly
the already-present keys plus the nonempty raw links of the processed rows. -/
theorem lookup_foldFreshService_isSome (rows : List SheetRow) (url : String) :
    ∀ acc : List (String × SheetRow),
      (lookupAssoc (rows.foldl freshInsertService acc) url).isSome ↔
        ((lookupAssoc acc url).isSome ∨ (url ≠ "" ∧ ∃ row ∈ rows, row.link = some url)) := by
  induction rows with
  | nil => intro acc; simp
  | cons row rest ih =>
    intro acc
    rw [List.foldl_cons, ih]
    have hstep : (lookupAssoc (freshInsertService acc row) url).isSome ↔
        ((lookupAssoc acc url).isSome ∨ (url ≠ "" ∧ row.link = some url)) := by
      unfold freshInsertService
      cases hl : row.link with
      | none => simp
      | some l =>
        dsimp only
        by_cases hz : l = ""
        · rw [if_neg (by simpa using hz)]
          constructor
          · exact Or.inl
          · rintro (h | ⟨hne, hl'⟩)
            · exact h
            · injection hl' with h'
              subst h'
              exact absurd hz hne
        · rw [if_pos (by simpa using hz), lookupAssoc_setAssoc]
          by_cases he : l = url
          · simp only [if_pos he, Option.isSome_some, true_iff]
            exact Or.inr ⟨he ▸ hz, he ▸ rfl⟩
          · simp only [if_neg he]
            constructor
            · exact Or.inl
            · rintro (h | ⟨hne, hl'⟩)
              · exact h
              · cases hl'
                exact absurd rfl he
    rw [hstep]
    constructor
    · rintro ((h | ⟨hne, hl⟩) | ⟨hne, r, hr, hl⟩)
      · exact Or.inl h
      · exact Or.inr ⟨hne, row, List.mem_cons_self row rest, hl⟩
      · exact Or.inr ⟨hne, r, List.mem_cons_of_mem row hr, hl⟩
    · rintro (h | ⟨hne, r, hr, hl⟩)
      · exact Or.inl (Or.inl h)
      · rcases List.mem_cons.mp hr with rfl | hr
        · exact Or.inl (Or.inr ⟨hne, hl⟩)
        · exact Or.inr ⟨hne, r, hr, hl⟩

/-- C8 (amended): the committers index the fresh snapshot NOT by the
normalized (`cleanUrl`) URL: a url resolves in main.js's index iff it is
nonempty and equals the TRIMMED raw link of some fresh row (`?.trim()` only),
and in services/batchUpdater.js's index iff it is nonempty and equals the RAW
link of some fresh row; so a pending update staged under the normalized URL
matches a row only when trimming (resp. nothing) already normalizes its link,
and a row whose link contains non-printable or zero-width characters that
survive trimming is counted as deleted. -/
theorem batchCommitter_index_keys (rows : List SheetRow) (url : String) :
    ((lookupAssoc (buildFreshRowMapMain rows) url).isSome ↔
      (url ≠ "" ∧ ∃ row ∈ rows, ∃ l, row.link = some l ∧ jsTrim l = url)) ∧
    ((lookupAssoc (buildFreshRowMapService rows) url).isSome ↔
      (url ≠ "" ∧ ∃ row ∈ rows, row.link = some url)) := by
  constructor
  · rw [buildFreshRowMapMain, lookup_foldFreshMain_isSome]
    simp [lookupAssoc]
  · rw [buildFreshRowMapService, lookup_foldFreshService_isSome]
    simp [lookupAssoc]

/-- Witness for C8 at a concrete input: a row whose link only needs trimming
is found in the main.js index under its trimmed (= normalized) form. -/
theorem batchCommitter_index_keys_witness :
    (lookupAssoc
        (buildFreshRowMapMain
          [{ link := some " https://twitch.tv/a ", status := none, lastChecked := none,
             lastLive := none, addedDate := none }])
        "https://twitch.tv/a").isSome = true :=
  (batchCommitter_index_keys
      [{ link := some " https://twitch.tv/a ", status := none, lastChecked := none,
         lastLive := none, addedDate := none }] "https://twitch.tv/a").1.mpr
    ⟨by decide,
     { link := some " https://twitch.tv/a ", status := none, lastChecked := none,
       lastLive := none, addedDate := none },
     by decide, " https://twitch.tv/a ", rfl, by decide⟩

/-- C8 counterexample: a fresh row whose raw link carries a zero-width space
(U+200B, removed by `cleanUrl` but not by `trim`) does not match the pending
update staged under its normalized URL — main.js's committer counts it as
deleted (skipped 1, updated 0) even though the row is present and saves
succeed. -/
theorem batchCommitter_zero_width_counterexample :
    cleanUrl "https://twitch.tv/a​" = "https://twitch.tv/a" ∧
    jsTrim "https://twitch.tv/a​" = "https://twitch.tv/a​" ∧
    batchUpdateRowsMain
        (some [{ link := some "https://twitch.tv/a​", status := some "Offline",
                 lastChecked := none, lastLive := none, addedDate := none }])
        [("https://twitch.tv/a", "Live")] 0 5 (fun _ => true) =
      { updatedCount := 0, skippedCount := 1, writes := [], saveErrors := [],
        pending := [] } := by
  refine ⟨by decide, by decide, by decide⟩

/-- C7: a `null` detector result stages nothing — `checkStatus` returns the
pending map unchanged — and the committer writes only rows found under a
staged key, so an entity that was never staged has its persisted fields (in
particular `Last Checked (PST)`) untouched. -/
theorem checkStatus_null_no_state_change :
    (∀ (fetchResult : String → Option UrlStatus) (now : Int) (row : SheetRow)
        (pending : List (String × String)) (l : String),
        row.link = some l → fetchResult (cleanUrl l) = none →
        checkStatus fetchResult now row pending = pending) ∧
    (∀ (freshRows : List SheetRow) (pending : List (String × String)) (cs now : Int)
        (saveOk : String → Bool) (w : String × SheetRow),
        w ∈ (batchUpdateRowsService (some freshRows) pending cs now saveOk).writes →
        ∃ e ∈ pending, e.1 = w.1) := by
  constructor
  · intro f now row pending l hl hf
    unfold checkStatus
    rw [hl]
    dsimp only
    by_cases h1 : isValidLiveUrl (cleanUrl l) <;>
      by_cases h2 : checkRateLimited now row <;>
      simp [h1, h2, hf]
  · intro freshRows pending cs now saveOk w hw
    rw [batchUpdateRowsService_eq] at hw
    dsimp only at hw
    obtain ⟨e, he, hfe⟩ := List.mem_filterMap.mp hw
    refine ⟨e, he, ?_⟩
    unfold entryWrite at hfe
    rcases h : lookupAssoc (buildFreshRowMapService freshRows) e.1 with _ | fr
    · rw [h] at hfe
      cases hfe
    · rw [h] at hfe
      dsimp only at hfe
      by_cases hc : batchConflict cs fr
      · rw [if_pos hc] at hfe
        cases hfe
      · rw [if_neg hc] at hfe
        by_cases hs : saveOk e.1
        · rw [if_pos hs] at hfe
          cases hfe
          rfl
        · rw [if_neg hs] at hfe
          cases hfe

/-- Witness for C7 at concrete inputs: a failing detector leaves a concrete
pending map unchanged, and a concrete committed write's key is a staged key. -/
theorem checkStatus_null_no_state_change_witness :
    checkStatus (fun _ => none) 0
        { link := some "https://twitch.tv/x", status := none, lastChecked := none,
          lastLive := none, addedDate := none }
        [("https://twitch.tv/y", "Live")] = [("https://twitch.tv/y", "Live")] ∧
    ∃ e ∈ [("https://twitch.tv/a", "Live")],
      e.1 = ("https://twitch.tv/a",
        assignUpdates
          { link := some "https://twitch.tv/a", status := some "Offline",
            lastChecked := none, lastLive := none, addedDate := none } "Live" 5).1 :=
  ⟨checkStatus_null_no_state_change.1 (fun _ => none) 0
      { link := some "https://twitch.tv/x", status := none, lastChecked := none,
        lastLive := none, addedDate := none }
      [("https://twitch.tv/y", "Live")] "https://twitch.tv/x" rfl rfl,
   checkStatus_null_no_state_change.2
      [{ link := some "https://twitch.tv/a", status := some "Offline",
         lastChecked := none, lastLive := none, addedDate := none }]
      [("https://twitch.tv/a", "Live")] 0 5 (fun _ => true)
      ("https://twitch.tv/a",
        assignUpdates
          { link := some "https://twitch.tv/a", status := some "Offline",
            lastChecked := none, lastLive := none, addedDate := none } "Live" 5)
      (by decide)⟩

/-- Full characterization of the archive loop from any accumulator. -/
theorem archiveFold_eq (threshold : ℚ) (clock : Nat → Int) (archiveOk : Int → Bool)
    (l : List (Nat × ArchStream)) :
    ∀ acc : ArchiveResult,
      l.foldl (archiveStep threshold clock archiveOk) acc =
        { archivedCount := acc.archivedCount +
            l.countP (fun p => !archiveReverifySkip threshold (clock p.1) p.2 && archiveOk p.2.id),
          errorCount := acc.errorCount +
            l.countP (fun p => !archiveReverifySkip threshold (clock p.1) p.2 && !archiveOk p.2.id),
          archivedIds := acc.archivedIds ++
            (l.filter (fun p =>
              !archiveReverifySkip threshold (clock p.1) p.2 && archiveOk p.2.id)).map
              (fun p => p.2.id),
          stateChangedIds := acc.stateChangedIds ++
            (l.filter (fun p => archiveReverifySkip threshold (clock p.1) p.2)).map
              (fun p => p.2.id) } := by
  induction l with
  | nil => intro acc; simp
  | cons p rest ih =>
    intro acc
    rw [List.foldl_cons]
    by_cases hs : archiveReverifySkip threshold (clock p.1) p.2
    · have hstep : archiveStep threshold clock archiveOk acc p =
          { acc with stateChangedIds := acc.stateChangedIds ++ [p.2.id] } := by
        simp [archiveStep, hs]
      rw [hstep, ih]
      simp [List.countP_cons, List.filter_cons, hs, ArchiveResult.mk.injEq]
    · by_cases ho : archiveOk p.2.id
      · have hstep : archiveStep threshold clock archiveOk acc p =
            { acc with
              archivedCount := acc.archivedCount + 1
              archivedIds := acc.archivedIds ++ [p.2.id] } := by
          simp [archiveStep, hs, ho]
        rw [hstep, ih]
        simp [List.countP_cons, List.filter_cons, hs, ho, ArchiveResult.mk.injEq] <;> omega
      · have hstep : archiveStep threshold clock archiveOk acc p =
            { acc with errorCount := acc.errorCount + 1 } := by
          simp [archiveStep, hs, ho]
        rw [hstep, ih]
        simp [List.countP_cons, List.filter_cons, hs, ho, ArchiveResult.mk.injEq] <;> omega

/-- Counting a pair predicate that only reads the element over an
enumerated list. -/
theorem countP_enumFrom_snd {α : Type} (q : α → Bool) :
    ∀ (n : Nat) (l : List α), (List.enumFrom n l).countP (fun p => q p.2) = l.countP q := by
  intro n l
  induction l generalizing n with
  | nil => rfl
  | cons a t ih => simp [List.enumFrom, List.countP_cons, ih]

/-- A record returned by the archive-candidate query passes the archive-time
re-verification at every later instant: its status field still reads
offline/unknown (it is the same in-memory record the query filtered), and
its age has only grown past the threshold it already exceeded at query time.
So the `state changed` skip can never fire on query output. -/
theorem archiveReverifySkip_false_on_query_output (allStreams : List ArchStream) (tq : Int)
    (thresholdMinutes : ℚ) (stream : ArchStream) (t : Int)
    (hmem : stream ∈ getExpiredOfflineStreamsFilter tq thresholdMinutes allStreams)
    (ht : tq ≤ t) :
    archiveReverifySkip thresholdMinutes t stream = false := by
  obtain ⟨-, hpred⟩ := List.mem_filter.mp hmem
  unfold isExpiredOfflineStream at hpred
  by_cases hst : stream.status ≠ "offline" ∧ stream.status ≠ "unknown"
  · rw [if_pos hst] at hpred
    cases hpred
  · rw [if_neg hst] at hpred
    have hstatus : stream.status = "offline" ∨ stream.status = "unknown" := by
      by_cases h1 : stream.status = "offline"
      · exact Or.inl h1
      · by_cases h2 : stream.status = "unknown"
        · exact Or.inr h2
        · exact absurd ⟨h1, h2⟩ hst
    have hage : thresholdMinutes * 60 * 1000 <
        ((tq - stream.last_live_at.getD stream.updated_at : Int) : ℚ) := by
      rcases hl : stream.last_live_at with _ | lastLive
      · rw [hl] at hpred
        simpa [hl] using of_decide_eq_true hpred
      · rw [hl] at hpred
        simpa [hl] using of_decide_eq_true hpred
    unfold archiveReverifySkip
    simp only [Bool.or_eq_false_iff, Bool.and_eq_false_iff, decide_eq_false_iff_not, not_not]
    refine ⟨?_, ?_⟩
    · rcases hstatus with h | h
      · exact Or.inl h
      · exact Or.inr h
    · rw [not_lt, le_div_iff₀ (by norm_num : (0:ℚ) < 60000)]
      have htq : ((tq : Int) : ℚ) ≤ ((t : Int) : ℚ) := by exact_mod_cast ht
      push_cast at hage ⊢
      linarith

/-- On any output of the archive-candidate query, with every archive-time
clock instant at or after the query time, the run skips nothing as
state-changed and archives every candidate whose archive call succeeds —
the re-verification offers no protection against a stream turning live in
the backing store after the query. -/
theorem archive_query_output_all_archived (allStreams : List ArchStream) (tq : Int)
    (thresholdMinutes : ℚ) (clock : Nat → Int) (archiveOk : Int → Bool)
    (hclock : ∀ i, tq ≤ clock i) :
    (archiveExpiredStreams (getExpiredOfflineStreamsFilter tq thresholdMinutes allStreams)
        thresholdMinutes clock archiveOk).stateChangedIds = [] ∧
    (archiveExpiredStreams (getExpiredOfflineStreamsFilter tq thresholdMinutes allStreams)
        thresholdMinutes clock archiveOk).archivedCount =
      (getExpiredOfflineStreamsFilter tq thresholdMinutes allStreams).countP
        (fun s => archiveOk s.id) ∧
    (archiveExpiredStreams (getExpiredOfflineStreamsFilter tq thresholdMinutes allStreams)
        thresholdMinutes clock archiveOk).errorCount =
      (getExpiredOfflineStreamsFilter tq thresholdMinutes allStreams).countP
        (fun s => !archiveOk s.id) := by
  have hskip : ∀ p ∈ (getExpiredOfflineStreamsFilter tq thresholdMinutes allStreams).enum,
      archiveReverifySkip thresholdMinutes (clock p.1) p.2 = false := by
    intro p hp
    have hmem : p.2 ∈ getExpiredOfflineStreamsFilter tq thresholdMinutes allStreams := by
      have hmap := List.enum_map_snd
        (getExpiredOfflineStreamsFilter tq thresholdMinutes allStreams)
      exact hmap ▸ List.mem_map_of_mem Prod.snd hp
    exact archiveReverifySkip_false_on_query_output allStreams tq thresholdMinutes p.2
      (clock p.1) hmem (hclock p.1)
  refine ⟨?_, ?_, ?_⟩
  · unfold archiveExpiredStreams
    rw [archiveFold_eq]
    simp only [List.nil_append]
    rw [List.filter_eq_nil_iff.mpr (fun p hp => by rw [hskip p hp]; exact Bool.false_ne_true)]
    rfl
  · unfold archiveExpiredStreams
    rw [archiveFold_eq]
    simp only [Nat.zero_add]
    rw [List.countP_congr fun p hp => by rw [hskip p hp]]
    exact countP_enumFrom_snd (fun s : ArchStream => archiveOk s.id) 0 _
  · unfold archiveExpiredStreams
    rw [archiveFold_eq]
    simp only [Nat.zero_add]
    rw [List.countP_congr fun p hp => by rw [hskip p hp]]
    exact countP_enumFrom_snd (fun s : ArchStream => !archiveOk s.id) 0 _

/-- C6 (code evaluated at the failing input): a stream that is offline and
45 minutes past its last live time at query time is returned by the
archive-candidate query; if it transitions to live in the backing store
before the archive write, the run — which re-verifies only the query-time
in-memory record, here one minute later — archives it anyway with no
state-changed skip, contradicting the claimed race protection (and the
code's own `This helps prevent race conditions` comment). -/
theorem archive_live_transition_still_archived :
    getExpiredOfflineStreamsFilter 2700000 30
        [{ id := 1, status := "offline", last_live_at := some 0, updated_at := 0 }] =
      [{ id := 1, status := "offline", last_live_at := some 0, updated_at := 0 }] ∧
    archiveExpiredStreams
        [{ id := 1, status := "offline", last_live_at := some 0, updated_at := 0 }] 30
        (fun _ => 2760000) (fun _ => true) =
      { archivedCount := 1, errorCount := 0, archivedIds := [1], stateChangedIds := [] } := by
  constructor
  · unfold getExpiredOfflineStreamsFilter isExpiredOfflineStream
    norm_num [List.filter]
  · have hskip : archiveReverifySkip 30 2760000
        { id := 1, status := "offline", last_live_at := some 0, updated_at := 0 } = false := by
      unfold archiveReverifySkip
      norm_num
    unfold archiveExpiredStreams
    simp [List.enum, List.enumFrom, archiveStep, hskip]

/-- Exhaustive branch analysis of one `checkKnownStreamers` iteration: a
defined step is a missing-url skip, an invalid-url skip, a rate-limit skip,
a per-cycle-cap skip, an already-in-Livesheet skip (with the rate window
consumed), or an actually-performed check (with the rate window consumed and
the check budget spent). -/
theorem knownStep_characterization (links : List (Option String)) (now : Int)
    (fetch : String → Option UrlStatus) (st : KnownState) (entry : KnownEntry)
    (st' : KnownState) (h : knownStep links now fetch st entry = some st') :
    (entry.row.url = none ∧ st' = st) ∨
    (∃ raw, entry.row.url = some raw ∧ isValidLiveUrl (cleanUrl raw) = false ∧
      st' = { st with skippedInvalid := st.skippedInvalid + 1 }) ∨
    (∃ raw rate, entry.row.url = some raw ∧ isValidLiveUrl (cleanUrl raw) = true ∧
      getCheckRateForPriority (some entry.priority) = some rate ∧
      now - (lookupAssoc st.lastCheck (cleanUrl raw)).getD 0 < rate ∧
      st' = { st with skippedRateLimit := st.skippedRateLimit + 1 }) ∨
    (∃ raw rate, entry.row.url = some raw ∧ isValidLiveUrl (cleanUrl raw) = true ∧
      getCheckRateForPriority (some entry.priority) = some rate ∧
      ¬(now - (lookupAssoc st.lastCheck (cleanUrl raw)).getD 0 < rate) ∧
      MAX_KNOWN_STREAMERS_PER_CYCLE ≤ st.checkedCount ∧
      st' = { st with skippedRateLimit := st.skippedRateLimit + 1 }) ∨
    (∃ raw rate, entry.row.url = some raw ∧ isValidLiveUrl (cleanUrl raw) = true ∧
      getCheckRateForPriority (some entry.priority) = some rate ∧
      ¬(now - (lookupAssoc st.lastCheck (cleanUrl raw)).getD 0 < rate) ∧
      st.checkedCount < MAX_KNOWN_STREAMERS_PER_CYCLE ∧
      isUrlInLivesheet (cleanUrl raw) links = true ∧
      st' = { st with
        lastCheck := setAssoc st.lastCheck (cleanUrl raw) now
        skippedAlreadyInLivesheet := st.skippedAlreadyInLivesheet + 1 }) ∨
    (∃ raw rate, entry.row.url = some raw ∧ isValidLiveUrl (cleanUrl raw) = true ∧
      getCheckRateForPriority (some entry.priority) = some rate ∧
      ¬(now - (lookupAssoc st.lastCheck (cleanUrl raw)).getD 0 < rate) ∧
      st.checkedCount < MAX_KNOWN_STREAMERS_PER_CYCLE ∧
      isUrlInLivesheet (cleanUrl raw) links = false ∧
      st'.lastCheck = setAssoc st.lastCheck (cleanUrl raw) now ∧
      st'.checkedCount = st.checkedCount + 1 ∧
      st'.skippedRateLimit = st.skippedRateLimit ∧
      st'.skippedAlreadyInLivesheet = st.skippedAlreadyInLivesheet) := by
  unfold knownStep at h
  rcases hu : entry.row.url with _ | raw
  · rw [hu] at h
    exact Or.inl ⟨rfl, (Option.some.inj h).symm⟩
  · rw [hu] at h
    dsimp only at h
    by_cases hv : isValidLiveUrl (cleanUrl raw)
    · rw [if_neg (by simp [hv])] at h
      rcases hr : getCheckRateForPriority (some entry.priority) with _ | rate
      · rw [hr] at h
        cases h
      · rw [hr] at h
        dsimp only at h
        by_cases hdue : now - (lookupAssoc st.lastCheck (cleanUrl raw)).getD 0 < rate
        · rw [if_pos hdue] at h
          exact Or.inr (Or.inr (Or.inl
            ⟨raw, rate, rfl, hv, rfl, hdue, (Option.some.inj h).symm⟩))
        · rw [if_neg hdue] at h
          by_cases hcap : MAX_KNOWN_STREAMERS_PER_CYCLE ≤ st.checkedCount
          · rw [if_pos hcap] at h
            exact Or.inr (Or.inr (Or.inr (Or.inl
              ⟨raw, rate, rfl, hv, rfl, hdue, hcap, (Option.some.inj h).symm⟩)))
          · rw [if_neg hcap] at h
            by_cases hin : isUrlInLivesheet (cleanUrl raw) links
            · rw [if_pos hin] at h
              exact Or.inr (Or.inr (Or.inr (Or.inr (Or.inl
                ⟨raw, rate, rfl, hv, rfl, hdue, Nat.lt_of_not_le hcap, hin,
                  (Option.some.inj h).symm⟩))))
            · rw [if_neg hin] at h
              refine Or.inr (Or.inr (Or.inr (Or.inr (Or.inr
                ⟨raw, rate, rfl, hv, rfl, hdue, Nat.lt_of_not_le hcap,
                  Bool.eq_false_iff.mpr hin, ?_⟩))))
              rcases hf : fetch (cleanUrl raw) with _ | result
              · rw [hf] at h
                cases Option.some.inj h
                exact ⟨rfl, rfl, rfl, rfl⟩
              · rw [hf] at h
                dsimp only at h
                by_cases hl : result.status = STATUS_LIVE
                · rw [if_pos hl] at h
                  cases Option.some.inj h
                  exact ⟨rfl, rfl, rfl, rfl⟩
                · rw [if_neg hl] at h
                  cases Option.some.inj h
                  exact ⟨rfl, rfl, rfl, rfl⟩
    · rw [if_pos (by simp [hv])] at h
      exact Or.inr (Or.inl ⟨raw, rfl, Bool.eq_false_iff.mpr hv, (Option.some.inj h).symm⟩)

/-- A defined step never pushes the check count past the per-cycle cap. -/
theorem knownStep_checkedCount_le (links : List (Option String)) (now : Int)
    (fetch : String → Option UrlStatus) (st : KnownState) (entry : KnownEntry)
    (st' : KnownState) (h : knownStep links now fetch st entry = some st')
    (hle : st.checkedCount ≤ MAX_KNOWN_STREAMERS_PER_CYCLE) :
    st'.checkedCount ≤ MAX_KNOWN_STREAMERS_PER_CYCLE := by
  rcases knownStep_characterization links now fetch st entry st' h with
    ⟨_, rfl⟩ | ⟨raw, _, _, rfl⟩ | ⟨raw, rate, _, _, _, _, rfl⟩ |
    ⟨raw, rate, _, _, _, _, _, rfl⟩ | ⟨raw, rate, _, _, _, _, _, _, rfl⟩ |
    ⟨raw, rate, _, _, _, _, hcap, _, _, hcc, _, _⟩
  · exact hle
  · exact hle
  · exact hle
  · exact hle
  · exact hle
  · omega

/-- The whole `checkKnownStreamers` fold keeps the check count at or below
the cap. -/
theorem knownFold_checkedCount_le (links : List (Option String)) (now : Int)
    (fetch : String → Option UrlStatus) :
    ∀ (entries : List KnownEntry) (st st' : KnownState),
      entries.foldlM (knownStep links now fetch) st = some st' →
      st.checkedCount ≤ MAX_KNOWN_STREAMERS_PER_CYCLE →
      st'.checkedCount ≤ MAX_KNOWN_STREAMERS_PER_CYCLE := by
  intro entries
  induction entries with
  | nil =>
    intro st st' h hle
    cases Option.some.inj h
    exact hle
  | cons e rest ih =>
    intro st st' h hle
    rw [List.foldlM_cons] at h
    rcases hstep : knownStep links now fetch st e with _ | st₁
    · rw [hstep] at h
      cases h
    · rw [hstep] at h
      exact ih st₁ st' h (knownStep_checkedCount_le links now fetch st e st₁ hstep hle)

/-- C5: (i) in every invocation of `checkKnownStreamers` the number of
detector checks actually performed is at most the per-cycle cap of 10;
(ii) with 15 due priority-100 entries, none already active, exactly 10 are
checked this cycle, the remaining 5 are counted rate-limit-deferred, nothing
is added, and a deferred entry's rate window is NOT consumed (its url is
absent from the last-check map, so it is due again next cycle); (iii) an
entry whose normalized URL is already in the active snapshot is never added
to the active set and never increments the per-cycle check count. -/
theorem checkKnownStreamers_cap_spec :
    (∀ (knownStreamers : List KnownRow) (links : List (Option String))
        (lastCheck₀ : List (String × Int)) (now : Int)
        (fetch : String → Option UrlStatus) (st' : KnownState),
        checkKnownStreamers knownStreamers links lastCheck₀ now fetch = some st' →
        st'.checkedCount ≤ MAX_KNOWN_STREAMERS_PER_CYCLE) ∧
    ((checkKnownStreamers fifteenKnownRows [] [] 1000000
        (fun _ => some { status := "Offline", platform := "Twitch" })).map
      (fun st => (st.checkedCount, st.skippedRateLimit, st.added,
        lookupAssoc st.lastCheck "https://twitch.tv/s15")) =
      some (10, 5, [], none)) ∧
    (∀ (links : List (Option String)) (now : Int) (fetch : String → Option UrlStatus)
        (st : KnownState) (entry : KnownEntry) (st' : KnownState) (raw : String),
        knownStep links now fetch st entry = some st' →
        entry.row.url = some raw →
        isUrlInLivesheet (cleanUrl raw) links = true →
        st'.added = st.added ∧ st'.checkedCount = st.checkedCount) := by
  refine ⟨?_, by decide, ?_⟩
  · intro knownStreamers links lastCheck₀ now fetch st' h
    exact knownFold_checkedCount_le links now fetch (sortKnownStreamers knownStreamers) _ st' h
      (by simp [MAX_KNOWN_STREAMERS_PER_CYCLE])
  · intro links now fetch st entry st' raw h hu hin
    rcases knownStep_characterization links now fetch st entry st' h with
      ⟨hn, rfl⟩ | ⟨raw', hu', _, rfl⟩ | ⟨raw', rate, hu', _, _, _, rfl⟩ |
      ⟨raw', rate, hu', _, _, _, _, rfl⟩ | ⟨raw', rate, hu', _, _, _, _, _, rfl⟩ |
      ⟨raw', rate, hu', _, _, _, _, hnin, _, hcc, _, _⟩
    · exact ⟨rfl, rfl⟩
    · exact ⟨rfl, rfl⟩
    · exact ⟨rfl, rfl⟩
    · exact ⟨rfl, rfl⟩
    · exact ⟨rfl, rfl⟩
    · rw [hu] at hu'
      cases Option.some.inj hu'
      rw [hin] at hnin
      cases hnin

/-- Witness for C5 at concrete inputs: an empty run satisfies the cap bound,
and a concrete already-in-Livesheet entry leaves the added rows and the
check count unchanged. -/
theorem checkKnownStreamers_cap_spec_witness :
    ({ lastCheck := [], checkedCount := 0, addedCount := 0, skippedRateLimit := 0,
       skippedInvalid := 0, skippedAlreadyInLivesheet := 0, offlineCount := 0,
       added := [] } : KnownState).checkedCount ≤ MAX_KNOWN_STREAMERS_PER_CYCLE ∧
    (({ lastCheck := [("https://twitch.tv/a", 5)], checkedCount := 0, addedCount := 0,
        skippedRateLimit := 0, skippedInvalid := 0, skippedAlreadyInLivesheet := 1,
        offlineCount := 0, added := [] } : KnownState).added =
      ({ lastCheck := [], checkedCount := 0, addedCount := 0, skippedRateLimit := 0,
         skippedInvalid := 0, skippedAlreadyInLivesheet := 0, offlineCount := 0,
         added := [] } : KnownState).added ∧
      ({ lastCheck := [("https://twitch.tv/a", 5)], checkedCount := 0, addedCount := 0,
         skippedRateLimit := 0, skippedInvalid := 0, skippedAlreadyInLivesheet := 1,
         offlineCount := 0, added := [] } : KnownState).checkedCount =
      ({ lastCheck := [], checkedCount := 0, addedCount := 0, skippedRateLimit := 0,
         skippedInvalid := 0, skippedAlreadyInLivesheet := 0, offlineCount := 0,
         added := [] } : KnownState).checkedCount) :=
  ⟨checkKnownStreamers_cap_spec.1 [] [] [] 0 (fun _ => none) _ (by decide),
   checkKnownStreamers_cap_spec.2.2 [some "https://twitch.tv/a"] 5 (fun _ => none)
      { lastCheck := [], checkedCount := 0, addedCount := 0, skippedRateLimit := 0,
        skippedInvalid := 0, skippedAlreadyInLivesheet := 0, offlineCount := 0, added := [] }
      { row := { url := some "https://twitch.tv/a", source := none, city := none,
                 state := none, priorityRaw := some 100 },
        priority := 100, originalIdx := 0 }
      { lastCheck := [("https://twitch.tv/a", 5)], checkedCount := 0, addedCount := 0,
        skippedRateLimit := 0, skippedInvalid := 0, skippedAlreadyInLivesheet := 1,
        offlineCount := 0, added := [] }
      "https://twitch.tv/a" (by decide) rfl (by decide)⟩

/-- C10: in one `checkKnownStreamers` iteration the rate-limit and
per-cycle-cap tests run before the already-in-active-set test, and the
in-memory last-check time is written before that dedup test; hence (a) an
entry skipped as already-in-Livesheet (valid URL, due, cap not reached) has
its last-check set to `now` — its rate window is consumed even though no
check happened — and (b) an entry skipped by the per-cycle cap leaves the
whole state unchanged except the rate-limit skip counter, in particular its
last-check time, so it stays eligible next cycle. -/
theorem knownStep_test_order :
    (∀ (links : List (Option String)) (now : Int) (fetch : String → Option UrlStatus)
        (st : KnownState) (entry : KnownEntry) (st' : KnownState) (raw : String)
        (rate : Int),
        knownStep links now fetch st entry = some st' →
        entry.row.url = some raw →
        isValidLiveUrl (cleanUrl raw) = true →
        getCheckRateForPriority (some entry.priority) = some rate →
        ¬(now - (lookupAssoc st.lastCheck (cleanUrl raw)).getD 0 < rate) →
        st.checkedCount < MAX_KNOWN_STREAMERS_PER_CYCLE →
        isUrlInLivesheet (cleanUrl raw) links = true →
        lookupAssoc st'.lastCheck (cleanUrl raw) = some now ∧
        st'.skippedAlreadyInLivesheet = st.skippedAlreadyInLivesheet + 1 ∧
        st'.checkedCount = st.checkedCount) ∧
    (∀ (links : List (Option String)) (now : Int) (fetch : String → Option UrlStatus)
        (st : KnownState) (entry : KnownEntry) (st' : KnownState) (raw : String)
        (rate : Int),
        knownStep links now fetch st entry = some st' →
        entry.row.url = some raw →
        isValidLiveUrl (cleanUrl raw) = true →
        getCheckRateForPriority (some entry.priority) = some rate →
        ¬(now - (lookupAssoc st.lastCheck (cleanUrl raw)).getD 0 < rate) →
        MAX_KNOWN_STREAMERS_PER_CYCLE ≤ st.checkedCount →
        st' = { st with skippedRateLimit := st.skippedRateLimit + 1 }) := by
  constructor
  · intro links now fetch st entry st' raw rate h hu hv hr hdue hcap hin
    rcases knownStep_characterization links now fetch st entry st' h with
      ⟨hn, _⟩ | ⟨raw', hu', hv', _⟩ | ⟨raw', rate', hu', _, hr', hdue', rfl⟩ |
      ⟨raw', rate', hu', _, hr', hdue', hcap', rfl⟩ |
      ⟨raw', rate', hu', _, _, _, _, _, rfl⟩ |
      ⟨raw', rate', hu', _, _, _, _, hnin, _, _, _, _⟩
    · rw [hu] at hn; cases hn
    · rw [hu] at hu'
      obtain rfl := Option.some.inj hu'
      exact absurd hv' (by simp [hv])
    · rw [hu] at hu'
      obtain rfl := Option.some.inj hu'
      rw [hr] at hr'
      obtain rfl := Option.some.inj hr'
      exact absurd hdue' hdue
    · rw [hu] at hu'
      obtain rfl := Option.some.inj hu'
      omega
    · rw [hu] at hu'
      obtain rfl := Option.some.inj hu'
      refine ⟨?_, rfl, rfl⟩
      rw [lookupAssoc_setAssoc]
      simp
    · rw [hu] at hu'
      obtain rfl := Option.some.inj hu'
      rw [hin] at hnin
      cases hnin
  · intro links now fetch st entry st' raw rate h hu hv hr hdue hcap
    rcases knownStep_characterization links now fetch st entry st' h with
      ⟨hn, _⟩ | ⟨raw', hu', hv', _⟩ | ⟨raw', rate', hu', _, hr', hdue', hst⟩ |
      ⟨raw', rate', hu', _, hr', hdue', hcap', hst⟩ |
      ⟨raw', rate', hu', _, hr', hdue', hcap', _, _⟩ |
      ⟨raw', rate', hu', _, hr', hdue', hcap', _, _, _, _, _⟩
    · rw [hu] at hn; cases hn
    · rw [hu] at hu'
      obtain rfl := Option.some.inj hu'
      exact absurd hv' (by simp [hv])
    · rw [hu] at hu'
      obtain rfl := Option.some.inj hu'
      rw [hr] at hr'
      obtain rfl := Option.some.inj hr'
      exact absurd hdue' hdue
    · exact hst
    · omega
    · omega

/-- Witness for C10 at concrete inputs: the already-active skip stamps the
url's last-check with `now`, and the cap skip increments only the rate-limit
counter. -/
theorem knownStep_test_order_witness :
    (lookupAssoc
        (({ lastCheck := [("https://twitch.tv/a", 5)], checkedCount := 0, addedCount := 0,
            skippedRateLimit := 0, skippedInvalid := 0, skippedAlreadyInLivesheet := 1,
            offlineCount := 0, added := [] } : KnownState)).lastCheck
        (cleanUrl "https://twitch.tv/a") = some 5 ∧
      ({ lastCheck := [("https://twitch.tv/a", 5)], checkedCount := 0, addedCount := 0,
         skippedRateLimit := 0, skippedInvalid := 0, skippedAlreadyInLivesheet := 1,
         offlineCount := 0, added := [] } : KnownState).skippedAlreadyInLivesheet = 0 + 1 ∧
      ({ lastCheck := [("https://twitch.tv/a", 5)], checkedCount := 0, addedCount := 0,
         skippedRateLimit := 0, skippedInvalid := 0, skippedAlreadyInLivesheet := 1,
         offlineCount := 0, added := [] } : KnownState).checkedCount = 0) ∧
    (({ lastCheck := [], checkedCount := 10, addedCount := 0, skippedRateLimit := 1,
        skippedInvalid := 0, skippedAlreadyInLivesheet := 0, offlineCount := 0,
        added := [] } : KnownState) =
      { ({ lastCheck := [], checkedCount := 10, addedCount := 0, skippedRateLimit := 0,
           skippedInvalid := 0, skippedAlreadyInLivesheet := 0, offlineCount := 0,
           added := [] } : KnownState) with skippedRateLimit := 0 + 1 }) :=
  ⟨knownStep_test_order.1 [some "https://twitch.tv/a"] 5 (fun _ => none)
      { lastCheck := [], checkedCount := 0, addedCount := 0, skippedRateLimit := 0,
        skippedInvalid := 0, skippedAlreadyInLivesheet := 0, offlineCount := 0, added := [] }
      { row := { url := some "https://twitch.tv/a", source := none, city := none,
                 state := none, priorityRaw := some 100 },
        priority := 100, originalIdx := 0 }
      { lastCheck := [("https://twitch.tv/a", 5)], checkedCount := 0, addedCount := 0,
        skippedInvalid := 0, skippedRateLimit := 0, skippedAlreadyInLivesheet := 1,
        offlineCount := 0, added := [] }
      "https://twitch.tv/a" 0 (by decide) rfl (by decide) (by decide) (by decide)
      (by decide) (by decide),
   knownStep_test_order.2 [] 5 (fun _ => none)
      { lastCheck := [], checkedCount := 10, addedCount := 0, skippedRateLimit := 0,
        skippedInvalid := 0, skippedAlreadyInLivesheet := 0, offlineCount := 0, added := [] }
      { row := { url := some "https://twitch.tv/b", source := none, city := none,
                 state := none, priorityRaw := some 100 },
        priority := 100, originalIdx := 0 }
      { lastCheck := [], checkedCount := 10, addedCount := 0, skippedRateLimit := 1,
        skippedInvalid := 0, skippedAlreadyInLivesheet := 0, offlineCount := 0, added := [] }
      "https://twitch.tv/b" 0 (by decide) rfl (by decide) (by decide) (by decide)
      (by decide)⟩

/-- C9 (code evaluated at the failing input): for a run of consecutive 401
responses to the same authenticated request, `request` re-authenticates and
retries after every single one — three consecutive 401s produce 3 attempts
and 3 re-authentications, and `n` consecutive 401s produce `n` of each —
instead of the documented single re-auth + single retry (at most 2 attempts,
1 re-auth). -/
theorem requestRun_unbounded_retries :
    requestRun false [401, 401, 401] = { attempts := 3, reauths := 3, success := false } ∧
    ∀ n : Nat, requestRun false (List.replicate n 401) =
      { attempts := n, reauths := n, success := false } := by
  constructor
  · decide
  · intro n
    induction n with
    | zero => rfl
    | succ n ih => simp [List.replicate_succ, requestRun, httpOk, ih]

end Livesheet
